import Mathlib

/-!
# oneterm session broker: access window, multiplexer, drivers

A shallow embedding of `backend/pkg/server/controller/connect.go` (and the
parts of `session.go` it relies on).  Go strings and byte slices are lists of
bytes, Go `int` is `Int` with explicit 64-bit wrap-around, channels and
writers are logs of the values sent on them, and the outcome of every call
into an external system (database, SSH gateway, tunnel daemon, wall clock)
is an explicit input.
-/

namespace Oneterm

/-! ## Go values -/

/-- A Go `string` or `[]byte`: a sequence of bytes. -/
abbrev Bytes := List Nat

/-- The bytes of an ASCII string literal. -/
def str (s : String) : Bytes := s.toList.map Char.toNat

/-- Go's `a <= b` on strings: byte-wise lexicographic order. -/
def strLe : Bytes → Bytes → Bool
  | [], _ => true
  | _ :: _, [] => false
  | a :: as, b :: bs => if a < b then true else if b < a then false else strLe as bs

/-- Go's `int` on a 64-bit platform: the representative of `x` in
`[-2^63, 2^63)`. -/
def wrapInt (x : Int) : Int := (x + 2 ^ 63) % 2 ^ 64 - 2 ^ 63

/-- Go's `%` on integers: the remainder of the division truncated toward
zero, whose sign follows the dividend. -/
def goRem (a b : Int) : Int := Int.tmod a b

/-- Go's `strings.Split(s, sep)` for a one-byte separator: the fields between
the occurrences of `sep`, one more than there are occurrences. -/
def strings.Split (s : Bytes) (sep : Nat) : List Bytes :=
  match s with
  | [] => [[]]
  | c :: cs =>
    if c = sep then [] :: strings.Split cs sep
    else
      match strings.Split cs sep with
      | [] => [[c]]
      | f :: fs => (c :: f) :: fs

/-- Go's `strings.HasPrefix(s, prefix)`. -/
def strings.HasPrefix : Bytes → Bytes → Bool
  | _, [] => true
  | [], _ :: _ => false
  | c :: cs, p :: ps => c == p && strings.HasPrefix cs ps

/-! ## The wall clock -/

/-- What `checkTime` observes of a `time.Time`: the instant it denotes (for
`Before` and `After`), and in its location the weekday (`time.Weekday`,
Sunday = 0) and the hour and minute of the day. -/
structure Time where
  unixNano : Int
  weekday : Fin 7
  hour : Fin 24
  minute : Fin 60
deriving DecidableEq, Repr

/-- Go's `t.Before(u)`. -/
def Time.Before (t u : Time) : Bool := decide (t.unixNano < u.unixNano)

/-- Go's `t.After(u)`. -/
def Time.After (t u : Time) : Bool := decide (t.unixNano > u.unixNano)

/-- Go's `t.Format("15:04")`: two-digit hour, a colon, two-digit minute. -/
def Time.Format1504 (t : Time) : Bytes :=
  [48 + t.hour.val / 10, 48 + t.hour.val % 10, 58,
   48 + t.minute.val / 10, 48 + t.minute.val % 10]

/-! ## Access window check -/

/-- Modelled from the spec: `model.Range`, whose declaration is not among the
sources: a weekday index and a list of `"HH:MM~HH:MM"` strings. -/
structure Range where
  Week : Int
  Times : List Bytes
deriving DecidableEq, Repr

/-- Modelled from the spec: `model.AccessAuth`, whose declaration is not among
the sources: optional absolute bounds, the weekly ranges, and the allow flag. -/
structure AccessAuth where
  Start : Option Time
  End : Option Time
  Ranges : List Range
  Allow : Bool
deriving DecidableEq, Repr

/-- The inner loop of `checkTime` over `r.Times`: one step per entry. -/
def checkTimeEntry (hm : Bytes) (inn : Bool) (s : Bytes) : Bool :=
  let ss := strings.Split s 126
  inn || (decide (ss.length ≥ 2) && strLe (ss.getD 0 []) hm && strLe hm (ss.getD 1 []))

/-- The outer loop of `checkTime` over `data.Ranges`: one step per range, on
the pair `(has, in)`. -/
def checkTimeRange (week : Int) (hm : Bytes) (acc : Bool × Bool) (r : Range) : Bool × Bool :=
  let has := acc.1 || decide (r.Times.length > 0)
  let inn :=
    if goRem (wrapInt (r.Week + 1)) 7 = week then r.Times.foldl (checkTimeEntry hm) acc.2
    else acc.2
  (has, inn)

/-- The function `checkTime`, with the instant `time.Now()` returned as its
first argument. -/
def checkTime (now : Time) (data : AccessAuth) : Bool :=
  let in0 : Bool :=
    if (match data.Start with
        | some s => now.Before s
        | none => false) ||
       (match data.End with
        | some e => now.After e
        | none => false) then false
    else true
  if !in0 then false
  else
    let week : Int := now.weekday.val
    let hm := now.Format1504
    let acc := data.Ranges.foldl (checkTimeRange week hm) (false, false)
    !acc.1 || (acc.2 == data.Allow)

/-- An entry `lo~hi` of a times list holds at `hm`: split on `~` it has at
least two fields, and `hm` lies between the first and the second. -/
def entryHolds (hm : Bytes) (s : Bytes) : Prop :=
  ∃ lo hi rest, strings.Split s 126 = lo :: hi :: rest ∧ strLe lo hm = true ∧ strLe hm hi = true

/-- The instant lies in the weekly window of the record: some range of the
weekday of `now` has an entry that holds at the time of day of `now`. -/
def inWindow (now : Time) (data : AccessAuth) : Prop :=
  ∃ r ∈ data.Ranges, goRem (wrapInt (r.Week + 1)) 7 = (now.weekday.val : Int) ∧
    ∃ s ∈ r.Times, entryHolds now.Format1504 s

/-- The instant lies outside the absolute bounds of the record. -/
def outsideBounds (now : Time) (data : AccessAuth) : Prop :=
  (∃ s, data.Start = some s ∧ now.unixNano < s.unixNano) ∨
  (∃ e, data.End = some e ∧ now.unixNano > e.unixNano)

/-- The record of the access-window scenario: allow-list, Monday (index 0),
09:00 to 17:00. -/
def mondayOffice : AccessAuth :=
  { Start := none, End := none,
    Ranges := [{ Week := 0, Times := [str "09:00~17:00"] }], Allow := true }


/-! ## Client endpoint: the multiplexer -/

/-- Which statement of `Connecting` wrote a frame to the client WebSocket. -/
inductive Origin where
  /-- Written by `sendMsg`: the content of `chs.Buf`. -/
  | flush
  /-- Written on the one-second tick: a zero-length frame. -/
  | heartbeat
  /-- Written on admin close: the "closed by admin" text. -/
  | notice
deriving DecidableEq, Repr

/-- One `WriteMessage(websocket.TextMessage, payload)` call. -/
structure WsFrame where
  origin : Origin
  payload : Bytes
deriving DecidableEq, Repr

/-- The part of a session's channel bundle and sockets the multiplexer acts
on.  Writers and channels are logs, oldest entry first. -/
structure Mux where
  /-- The accumulator `chs.Buf`. -/
  buf : Bytes
  /-- Frames written to the client WebSocket `ws`. -/
  ws : List WsFrame
  /-- Frames handed to `writeToMonitors`. -/
  monitors : List WsFrame
  /-- The arguments of the `chs.Win.Write` calls. -/
  win : List Bytes
  /-- The strings sent on `chs.WindowChan`. -/
  windowChan : List Bytes
deriving DecidableEq, Repr

/-- The bundle as `makeChans` creates it, with nothing written yet. -/
def Mux.init : Mux :=
  { buf := [], ws := [], monitors := [], win := [], windowChan := [] }

/-- The function `sendMsg`; `hasWs` says that its `ws` argument is not nil. -/
def sendMsg (hasWs : Bool) (m : Mux) : Mux :=
  let out := m.buf
  if out.length ≤ 0 then m
  else
    { m with
      ws := if hasWs then m.ws ++ [⟨.flush, out⟩] else m.ws
      monitors := m.monitors ++ [⟨.flush, out⟩]
      buf := [] }

/-- The text `"\r\n \033[31m closed by admin"`. -/
def closedByAdmin : Bytes := [13, 10, 32, 27] ++ str "[31m closed by admin"

/-- The arm `case in := <-chs.InChan` of the loop of `Connecting`; `none` is
the run-time panic of `in[0]` on an empty frame. -/
def handleIn (isSssh : Bool) (f : Bytes) (m : Mux) : Option Mux :=
  if isSssh then
    match f with
    | [] => none
    | rt :: msg =>
      if rt = 49 then some { m with win := m.win ++ [msg] }
      else if rt = 57 then some m
      else if rt = 119 then some { m with windowChan := m.windowChan ++ [msg] }
      else some m
  else some { m with win := m.win ++ [f] }

/-- What the `select` of the loop of `Connecting` can receive. -/
inductive Event where
  | ctxDone
  | readWsErr
  | closeChan (closeBy : Bytes)
  | errChan
  | inChan (f : Bytes)
  | outChan (out : Bytes)
  | tk
  | tk1s
deriving DecidableEq, Repr

/-- How an iteration of the loop ends. -/
inductive Outcome where
  /-- The loop goes on to the next `select`. -/
  | running
  /-- The arm returned. -/
  | exited
  /-- The arm panicked. -/
  | panicked
deriving DecidableEq, Repr

/-- One iteration of the loop of `Connecting` on the event its `select`
received. -/
def Connecting.step (isSssh : Bool) (m : Mux) : Event → Mux × Outcome
  | .ctxDone => (m, .exited)
  | .readWsErr => (m, .exited)
  | .closeChan _ =>
    (if isSssh then
      { m with ws := m.ws ++ [⟨.notice, closedByAdmin⟩]
               monitors := m.monitors ++ [⟨.notice, closedByAdmin⟩] }
     else m, .exited)
  | .errChan => (m, .exited)
  | .inChan f =>
    match handleIn isSssh f m with
    | some m' => (m', .running)
    | none => (m, .panicked)
  | .outChan out => ({ m with buf := m.buf ++ out }, .running)
  | .tk => (sendMsg true m, .running)
  | .tk1s =>
    ({ m with ws := m.ws ++ [⟨.heartbeat, []⟩]
              monitors := m.monitors ++ [⟨.heartbeat, []⟩] }, .running)

/-- The loop of `Connecting` on the events its `select` receives, in order:
the state when the loop stops, or when the events run out. -/
def Connecting.loop (isSssh : Bool) : Mux → List Event → Mux × Outcome
  | m, [] => (m, .running)
  | m, e :: es =>
    match Connecting.step isSssh m e with
    | (m', .running) => Connecting.loop isSssh m' es
    | r => r

/-- The loop of `Connecting` followed by its deferred `sendMsg`, which runs
when the loop returns or panics; `none` while the loop is still running. -/
def Connecting.run (isSssh : Bool) (m : Mux) (evs : List Event) : Option Mux :=
  match Connecting.loop isSssh m evs with
  | (_, .running) => none
  | (m', _) => some (sendMsg true m')

/-- The chunks the events deliver on `chs.OutChan`, in order. -/
def chunks : List Event → List Bytes
  | [] => []
  | .outChan out :: es => out :: chunks es
  | _ :: es => chunks es

/-- The payloads of the frames `sendMsg` wrote, in order. -/
def flushPayloads (fs : List WsFrame) : List Bytes :=
  (fs.filter (fun f => f.origin = .flush)).map (fun f => f.payload)

/-- A message as `ws.ReadMessage` returns it: its type and its payload. -/
structure WsMsg where
  t : Nat
  msg : Bytes
deriving DecidableEq, Repr

/-- The constant `websocket.TextMessage`. -/
def TextMessage : Nat := 1

/-- The function `readWsMsg` on the messages read before the read error or
the cancellation that ends it: the frames it sends on `chs.InChan`. -/
def readWsMsg : List WsMsg → List Bytes
  | [] => []
  | m :: ms =>
    if m.msg.length ≤ 0 then readWsMsg ms
    else if m.t = TextMessage then m.msg :: readWsMsg ms
    else readWsMsg ms

/-- What the client has been sent by `sendMsg`, followed by what is buffered. -/
def delivered (m : Mux) : Bytes := (flushPayloads m.ws).flatten ++ m.buf

/-- A run of the multiplexer: two chunks, a flush tick between them, a
heartbeat and a keystroke frame. -/
def sampleEvents : List Event :=
  [.outChan (str "ab"), .tk, .inChan (str "1x"), .outChan (str "c"), .tk1s]

/-- The state the loop of a shell session reaches on `sampleEvents`. -/
def sampleState : Mux :=
  { buf := str "c", ws := [⟨.flush, str "ab"⟩, ⟨.heartbeat, []⟩],
    monitors := [⟨.flush, str "ab"⟩, ⟨.heartbeat, []⟩],
    win := [str "x"], windowChan := [] }

/-! ## Shell driver: resize hints -/

/-- The request `sess.WindowChange(h, w)`: rows `h`, columns `w`. -/
structure WindowChange where
  rows : Int
  cols : Int
deriving DecidableEq, Repr

/-- The arm `case s := <-chs.WindowChan` of the loop of `doSsh`: the
window-change request it issues, if any.  `ToInt` is the library function
`cast.ToInt` on strings, which yields 0 for a string it cannot read as an
integer. -/
def doSsh.window (ToInt : Bytes → Int) (s : Bytes) : Option WindowChange :=
  let wh := strings.Split s 44
  if wh.length < 2 then none
  else
    let w := ToInt (wh.getD 0 [])
    let h := ToInt (wh.getD 1 [])
    if w ≤ 0 ∨ h ≤ 0 then none
    else some { rows := h, cols := w }

/-! ## Sessions, requests and the registry -/

/-- A Go `error` value; `none` is `nil`, `some msg` an error with that text. -/
abbrev GoError := Option Bytes

/-- Modelled from the spec: the constants `model.SESSIONTYPE_WEB` and
`model.SESSIONTYPE_CLIENT`, whose declaration is not among the sources. -/
def SESSIONTYPE_WEB : Int := 1

/-- Modelled from the spec: see `SESSIONTYPE_WEB`. -/
def SESSIONTYPE_CLIENT : Int := 2

/-- Modelled from the spec: the constants `model.SESSIONSTATUS_ONLINE` and
`model.SESSIONSTATUS_OFFLINE`, whose declaration is not among the sources
(`session.go` documents `online=1, offline=2`). -/
def SESSIONSTATUS_ONLINE : Int := 1

/-- Modelled from the spec: see `SESSIONSTATUS_ONLINE`. -/
def SESSIONSTATUS_OFFLINE : Int := 2

/-- Modelled from the spec: `model.ServerResp`, whose declaration is not among
the sources: the handshake reply. -/
structure ServerResp where
  Code : Int
  Message : Bytes
  SessionId : Bytes
  Uid : Int
  UserName : Bytes
deriving DecidableEq, Repr

/-- Modelled from the spec: `model.Session`, whose declaration is not among
the sources, with the fields the controller reads and writes.  `Chans` is nil
(`none`) or the channel bundle; `Monitors` is nil or the map from attach key
to monitor WebSocket handle; `ClosedAt` is nil or an instant. -/
structure Session where
  SessionType : Int
  SessionId : Bytes
  Uid : Int
  UserName : Bytes
  AssetId : Int
  AssetInfo : Bytes
  AccountId : Int
  AccountInfo : Bytes
  GatewayId : Int
  GatewayInfo : Bytes
  ClientIp : Bytes
  Protocol : Bytes
  Status : Int
  ClosedAt : Option Int
  Connected : Bool
  Chans : Option Mux
  Monitors : Option (List (Bytes × Nat))
deriving DecidableEq, Repr

/-- What a handler reads of its `*gin.Context`: the route parameters, the
client address, and the user `acl.GetSessionFromCtx` returns. -/
structure GinCtx where
  params : List (Bytes × Bytes)
  clientIP : Bytes
  uid : Int
  userName : Bytes
deriving DecidableEq, Repr

/-- Gin's `ctx.Param(key)`: the value of the route parameter, or the empty
string when the route has no such parameter. -/
def GinCtx.Param (ctx : GinCtx) (key : Bytes) : Bytes :=
  match ctx.params.lookup key with
  | some v => v
  | none => []

/-- A value stored in the `sync.Map` `onlineSession`, whose values have the
type `any`: a `*model.Session`, or a value of another type. -/
inductive RegVal where
  | session (s : Session)
  | other
deriving DecidableEq, Repr

/-- The registry `onlineSession`: at most one entry per key, looked up from
the front. -/
abbrev Registry := List (Bytes × RegVal)

/-- The call `onlineSession.Load(key)`. -/
def Registry.Load (reg : Registry) (key : Bytes) : Option RegVal := reg.lookup key

/-- A write through the pointer stored under `key`: the entry is replaced by
`v`, every other entry is kept. -/
def Registry.set (reg : Registry) (key : Bytes) (v : RegVal) : Registry :=
  match reg with
  | [] => []
  | (k, w) :: rest => if k == key then (k, v) :: rest else (k, w) :: Registry.set rest key v

/-- The typed error codes of `ApiError` the connect handlers use. -/
inductive ErrCode where
  | ErrInvalidSessionId
  | ErrLoadSession
  | ErrConnectServer
  | ErrNoPerm
  | ErrBadRequest
  | ErrInvalidArgument
  | ErrInternal
deriving DecidableEq, Repr

/-! ## Client endpoint: the attach gate -/

/-- Go's `atomic.Bool.CompareAndSwap(old, new)` on a flag holding `b`: the
value the flag holds afterwards, and whether the swap happened. -/
def CompareAndSwap (b old new : Bool) : Bool × Bool :=
  if b = old then (new, true) else (b, false)

/-- The head of `Connecting`, from `onlineSession.Load` through
`session.Connected.CompareAndSwap(false, true)`, run without another task in
between: the registry afterwards, and the typed error the handler sets or the
session it goes on with. -/
def Connecting.gate (reg : Registry) (sessionId : Bytes) : Registry × Except ErrCode Session :=
  match reg.Load sessionId with
  | none => (reg, .error .ErrInvalidSessionId)
  | some .other => (reg, .error .ErrLoadSession)
  | some (.session session) =>
    if session.Connected then (reg, .error .ErrInvalidSessionId)
    else
      let session' := { session with Connected := (CompareAndSwap session.Connected false true).1 }
      (reg.set sessionId (.session session'), .ok session')

/-- A sequence of attach attempts, one after the other, on the session ids
given: the registry afterwards and the outcome of each attempt (`none` for an
attach that went through, or the error code). -/
def attachAll : Registry → List Bytes → Registry × List (Option ErrCode)
  | reg, [] => (reg, [])
  | reg, x :: xs =>
    let r := Connecting.gate reg x
    let rest := attachAll r.1 xs
    (rest.1, (match r.2 with
              | .ok _ => none
              | .error e => some e) :: rest.2)

/-- Where a task running the head of `Connecting` stands. -/
inductive Pc where
  /-- Before `session.Connected.Load()`. -/
  | start
  /-- After a `Load()` that returned false, before the `CompareAndSwap`. -/
  | checked
  /-- Past the gate, on its way into the multiplexer loop. -/
  | entered
  /-- Returned with `ErrInvalidSessionId`. -/
  | rejected
deriving DecidableEq, Repr

/-- Two tasks `a` and `b` in the head of `Connecting` on the same session,
and the session's `Connected` flag. -/
structure Race where
  connected : Bool
  a : Pc
  b : Pc
deriving DecidableEq, Repr

/-- One atomic action of a task at `pc` on the flag: the `Load()` with its
test, or the `CompareAndSwap(false, true)` whose result the code discards. -/
def gateAction (connected : Bool) : Pc → Bool × Pc
  | .start => if connected then (connected, .rejected) else (connected, .checked)
  | .checked => ((CompareAndSwap connected false true).1, .entered)
  | .entered => (connected, .entered)
  | .rejected => (connected, .rejected)

/-- The scheduler lets task `a` (`true`) or task `b` (`false`) take its next
atomic action. -/
def Race.step (r : Race) (who : Bool) : Race :=
  if who then
    let x := gateAction r.connected r.a
    { r with connected := x.1, a := x.2 }
  else
    let x := gateAction r.connected r.b
    { r with connected := x.1, b := x.2 }

/-- The race under a schedule. -/
def Race.run (r : Race) (schedule : List Bool) : Race := schedule.foldl Race.step r

/-! ## Create: the choice of driver -/

/-- The two backend drivers. -/
inductive Driver where
  /-- The function `doSsh`. -/
  | shell
  /-- The function `doGuacd`. -/
  | desktop
deriving DecidableEq, Repr

/-- The `switch strings.Split(protocol, ":")[0]` of `Connect`: the driver it
launches; `none` is the `default` arm, which launches none. -/
def Connect.driver (protocol : Bytes) : Option Driver :=
  let k := (strings.Split protocol 58).headD []
  if k = str "ssh" then some .shell
  else if k = str "vnc" ∨ k = str "rdp" then some .desktop
  else none

/-- The flag `isSssh` of `Connecting`. -/
def Connecting.isSssh (protocol : Bytes) : Bool := strings.HasPrefix protocol (str "ssh")

/-! ## Backend drivers: connect and handshake -/

/-- What a driver does that `Create` and the multiplexer can observe, in
program order. -/
inductive Action where
  /-- The send `chs.ErrChan <- err`. -/
  | sendErr (err : GoError)
  /-- The send `chs.RespChan <- resp`. -/
  | sendResp (resp : ServerResp)
  /-- The call `handleUpsertSession(ctx, session)`. -/
  | upsert (session : Session)
  /-- From here on the pump forwards backend output to `chs.OutChan`. -/
  | startPump
  /-- The deferred `session.Status = OFFLINE; session.ClosedAt = now`. -/
  | setOffline
deriving DecidableEq, Repr

/-- The values sent on `err_chan`, in order. -/
def errSends : List Action → List GoError
  | [] => []
  | .sendErr e :: as => e :: errSends as
  | _ :: as => errSends as

/-- The values sent on `resp_chan`, in order. -/
def respSends : List Action → List ServerResp
  | [] => []
  | .sendResp r :: as => r :: respSends as
  | _ :: as => respSends as

/-- The outcome of every step of the connect and handshake of `doSsh` that
leaves the process: the error each call returns, the line read, and what
`json.Unmarshal` makes of it. -/
structure SshBackend where
  dial : GoError
  newSession : GoError
  requestPty : GoError
  shell : GoError
  marshal : GoError
  winWrite : GoError
  readBytes : GoError
  unmarshal : GoError × ServerResp
deriving DecidableEq, Repr

/-- The function `doSsh` up to the start of its pump loop.  Every step
assigns the `err` the deferred `chs.ErrChan <- err` reads. -/
def doSsh.handshake (b : SshBackend) : List Action :=
  let err := b.dial
  if err.isSome then [.sendErr err] else
  let err := b.newSession
  if err.isSome then [.sendErr err] else
  let err := b.requestPty
  if err.isSome then [.sendErr err] else
  let err := b.shell
  if err.isSome then [.sendErr err] else
  let err := b.marshal
  if err.isSome then [.sendErr err] else
  let err := b.winWrite
  if err.isSome then [.sendErr err] else
  let err := b.readBytes
  if err.isSome then [.sendErr err] else
  let err := b.unmarshal.1
  if err.isSome then [.sendErr err] else
  [.sendErr none, .sendResp b.unmarshal.2, .startPump]

/-- Modelled from the spec: `model.Asset`, whose declaration is not among the
sources, with the fields `doGuacd` reads. -/
structure Asset where
  Id : Int
  Name : Bytes
  Ip : Bytes
  GatewayId : Int
  AccessAuth : AccessAuth
deriving DecidableEq, Repr

/-- Modelled from the spec: `model.Account`, whose declaration is not among
the sources. -/
structure Account where
  Id : Int
  Name : Bytes
  Account : Bytes
deriving DecidableEq, Repr

/-- Modelled from the spec: `model.Gateway`, whose declaration is not among
the sources. -/
structure Gateway where
  Id : Int
  Host : Bytes
  Port : Int
deriving DecidableEq, Repr

/-- Go's `fmt.Sprintf("%d", n)`. -/
def fmtInt (n : Int) : Bytes := str (toString n)

/-- The function `newGuacdSession`.  The fields it does not set hold their
zero values. -/
def newGuacdSession (ctx : GinCtx) (_sessionId : Bytes) (asset : Asset) (account : Account)
    (gateway : Gateway) : Session :=
  { SessionType := SESSIONTYPE_WEB
    SessionId := ctx.Param (str "session_id")
    Uid := ctx.uid
    UserName := ctx.userName
    AssetId := asset.Id
    AssetInfo := asset.Name ++ str "(" ++ asset.Ip ++ str ")"
    AccountId := account.Id
    AccountInfo := account.Name ++ str "(" ++ account.Account ++ str ")"
    GatewayId := gateway.Id
    GatewayInfo := gateway.Host ++ str ":" ++ fmtInt gateway.Port
    ClientIp := ctx.clientIP
    Protocol := ctx.Param (str "protocol")
    Status := 0
    ClosedAt := none
    Connected := false
    Chans := none
    Monitors := none }

/-- The outcome of every step of the connect and handshake of `doGuacd` that
leaves the process: the instant `time.Now()` returns, the error of each
database query together with the value the record it is read into (`asset`,
in all three queries) holds afterwards, the error and the uuid of the tunnel,
and the errors of the tunnel handshake and of `handleUpsertSession`. -/
structure GuacdBackend where
  now : Time
  findAsset : GoError × Asset
  findAccount : GoError × Asset
  findGateway : GoError × Asset
  newTunnel : GoError × Bytes
  handshake : GoError
  upsert : GoError
deriving DecidableEq, Repr

/-- The function `doGuacd`.  `err` is the variable of the function body that
the deferred `chs.ErrChan <- err` reads; an `if err := ...; err != nil` has a
variable of its own and leaves it as it was.  `account` and `gateway` keep
their zero values, the queries reading into `asset`. -/
def doGuacd (ctx : GinCtx) (b : GuacdBackend) : List Action :=
  let err : GoError := none
  let account : Account := { Id := 0, Name := [], Account := [] }
  let gateway : Gateway := { Id := 0, Host := [], Port := 0 }
  if b.findAsset.1.isSome then [.sendErr err] else
  let asset := b.findAsset.2
  if !checkTime b.now asset.AccessAuth then
    let err : GoError := some (str "invalid access time")
    [.sendErr err]
  else
  if b.findAccount.1.isSome then [.sendErr err] else
  let asset := b.findAccount.2
  if asset.GatewayId ≠ 0 ∧ b.findGateway.1.isSome then [.sendErr err] else
  let asset := if asset.GatewayId ≠ 0 then b.findGateway.2 else asset
  let err := b.newTunnel.1
  if err.isSome then [.sendErr err] else
  let uuid := b.newTunnel.2
  if b.handshake.isSome then [.sendErr err] else
  let session := newGuacdSession ctx uuid asset account gateway
  let err := b.upsert
  if err.isSome then [.upsert session, .sendErr err] else
  let resp : ServerResp :=
    { Code := if err = none then 0 else -1
      Message := match err with
        | none => []
        | some msg => msg
      SessionId := uuid
      Uid := ctx.uid
      UserName := ctx.userName }
  [.upsert session, .sendErr none, .sendResp resp, .startPump, .setOffline, .sendErr err]

/-- How `Connect` ends its wait for the driver. -/
inductive CreateResult where
  /-- It waits on a channel on which nothing is sent: it never returns. -/
  | blocked
  /-- The call `ctx.AbortWithError(status, &ApiError{Code: code})`. -/
  | abort (status : Nat) (code : ErrCode)
  /-- The handshake gave this session id; the registry lookup follows. -/
  | handshaken (sessionId : Bytes)
deriving DecidableEq, Repr

/-- The function `Connect` from `<-chs.ErrChan` to `sessionId = resp.SessionId`,
on what the driver it launched does. -/
def Connect.await (driver : List Action) : CreateResult :=
  match errSends driver with
  | [] => .blocked
  | some _ :: _ => .abort 500 .ErrConnectServer
  | none :: _ =>
    match respSends driver with
    | [] => .blocked
    | resp :: _ =>
      if resp.Code ≠ 0 then .abort 500 .ErrConnectServer
      else .handshaken resp.SessionId

/-- The context of a request on the route
`/connect/:asset_id/:account_id/:protocol`: asset 1, account 2, protocol rdp. -/
def createCtx : GinCtx :=
  { params := [(str "asset_id", str "1"), (str "account_id", str "2"), (str "protocol", str "rdp")]
    clientIP := str "10.0.0.7", uid := 5, userName := str "ann" }

/-- An asset with no access restriction. -/
def openAsset : Asset :=
  { Id := 1, Name := str "db", Ip := str "10.0.0.9", GatewayId := 0,
    AccessAuth := { Start := none, End := none, Ranges := [], Allow := true } }

/-- A backend on which every step of `doGuacd` succeeds; the tunnel has the
uuid `$u1`. -/
def goodGuacd : GuacdBackend :=
  { now := { unixNano := 0, weekday := 0, hour := 10, minute := 0 }
    findAsset := (none, openAsset), findAccount := (none, openAsset),
    findGateway := (none, openAsset), newTunnel := (none, str "$u1"),
    handshake := none, upsert := none }

/-! ## Go's `unicode/utf8` -/

/-- The constant `utf8.RuneError`, the replacement rune U+FFFD. -/
def utf8.RuneError : Nat := 0xFFFD

/-- The constant `utf8.MaxRune`. -/
def utf8.MaxRune : Nat := 0x10FFFF

/-- The table `first` of `unicode/utf8`: for a first byte, `0xF0` (ASCII),
`0xF1` (invalid), or the index of its accept range in the high nibble and the
length of the sequence in the low one. -/
def utf8.first (b : Nat) : Nat :=
  if b < 0x80 then 0xF0
  else if b < 0xC2 then 0xF1
  else if b < 0xE0 then 0x02
  else if b = 0xE0 then 0x13
  else if b < 0xED then 0x03
  else if b = 0xED then 0x23
  else if b < 0xF0 then 0x03
  else if b = 0xF0 then 0x34
  else if b < 0xF4 then 0x04
  else if b = 0xF4 then 0x44
  else 0xF1

/-- The table `acceptRanges` of `unicode/utf8`: the bounds `(lo, hi)` of the
second byte. -/
def utf8.acceptRanges (i : Nat) : Nat × Nat :=
  if i = 0 then (0x80, 0xBF)
  else if i = 1 then (0xA0, 0xBF)
  else if i = 2 then (0x80, 0x9F)
  else if i = 3 then (0x90, 0xBF)
  else if i = 4 then (0x80, 0x8F)
  else (0, 0)

/-- Go's `utf8.DecodeRune(p)`: the rune at the head of `p` and its width in
bytes; `(RuneError, 0)` on an empty `p` and `(RuneError, 1)` on an encoding
that is invalid or cut short. -/
def utf8.DecodeRune (p : Bytes) : Nat × Nat :=
  match p with
  | [] => (utf8.RuneError, 0)
  | p0 :: t1 =>
    let x := utf8.first p0
    if x ≥ 0xF0 then
      (if x % 2 = 1 then utf8.RuneError else p0, 1)
    else
      let sz := x &&& 7
      let accept := utf8.acceptRanges (x >>> 4)
      if p.length < sz then (utf8.RuneError, 1)
      else
        match t1 with
        | [] => (utf8.RuneError, 1)
        | b1 :: t2 =>
          if b1 < accept.1 ∨ accept.2 < b1 then (utf8.RuneError, 1)
          else if sz ≤ 2 then ((p0 &&& 0x1F) <<< 6 ||| (b1 &&& 0x3F), 2)
          else
            match t2 with
            | [] => (utf8.RuneError, 1)
            | b2 :: t3 =>
              if b2 < 0x80 ∨ 0xBF < b2 then (utf8.RuneError, 1)
              else if sz ≤ 3 then
                ((p0 &&& 0x0F) <<< 12 ||| (b1 &&& 0x3F) <<< 6 ||| (b2 &&& 0x3F), 3)
              else
                match t3 with
                | [] => (utf8.RuneError, 1)
                | b3 :: _ =>
                  if b3 < 0x80 ∨ 0xBF < b3 then (utf8.RuneError, 1)
                  else
                    ((p0 &&& 0x07) <<< 18 ||| (b1 &&& 0x3F) <<< 12 ||| (b2 &&& 0x3F) <<< 6 |||
                      (b3 &&& 0x3F), 4)

/-- Go's `utf8.RuneLen(r)` for a rune that is not negative: the number of
bytes of its encoding, or -1 for a surrogate or a value above `MaxRune`. -/
def utf8.RuneLen (r : Nat) : Int :=
  if r ≤ 0x7F then 1
  else if r ≤ 0x7FF then 2
  else if 0xD800 ≤ r ∧ r ≤ 0xDFFF then -1
  else if r ≤ 0xFFFF then 3
  else if r ≤ utf8.MaxRune then 4
  else -1

/-- Go's `utf8.EncodeRune(p, r)` for a rune that is not negative: the bytes it
writes at the head of `p`. -/
def utf8.EncodeRune (r : Nat) : Bytes :=
  if r ≤ 0x7F then [r % 256]
  else if r ≤ 0x7FF then [0xC0 ||| (r >>> 6) % 256, 0x80 ||| (r % 256 &&& 0x3F)]
  else if r > utf8.MaxRune ∨ (0xD800 ≤ r ∧ r ≤ 0xDFFF) then
    [0xE0 ||| (utf8.RuneError >>> 12) % 256, 0x80 ||| ((utf8.RuneError >>> 6) % 256 &&& 0x3F),
     0x80 ||| (utf8.RuneError % 256 &&& 0x3F)]
  else if r ≤ 0xFFFF then
    [0xE0 ||| (r >>> 12) % 256, 0x80 ||| ((r >>> 6) % 256 &&& 0x3F), 0x80 ||| (r % 256 &&& 0x3F)]
  else
    [0xF0 ||| (r >>> 18) % 256, 0x80 ||| ((r >>> 12) % 256 &&& 0x3F),
     0x80 ||| ((r >>> 6) % 256 &&& 0x3F), 0x80 ||| (r % 256 &&& 0x3F)]

/-- A Unicode scalar value: at most `MaxRune` and not a surrogate. -/
def ValidRune (r : Nat) : Prop := r ≤ 0x10FFFF ∧ ¬ (0xD800 ≤ r ∧ r ≤ 0xDFFF)

/-- The length of the shortest UTF-8 encoding of a scalar value. -/
def minimalLen (r : Nat) : Nat :=
  if r < 0x80 then 1 else if r < 0x800 then 2 else if r < 0x10000 then 3 else 4

/-- The bytes are the shortest UTF-8 encoding of one scalar value other than
the replacement rune. -/
def WholeRune (c : Bytes) : Prop :=
  ∃ r, ValidRune r ∧ r ≠ utf8.RuneError ∧ c = utf8.EncodeRune r ∧ c.length = minimalLen r ∧
    1 ≤ c.length ∧ c.length ≤ 4

/-- The bytes are a concatenation of whole runes. -/
def WholeRunes (bs : Bytes) : Prop :=
  ∃ cs : List Bytes, (∀ c ∈ cs, WholeRune c) ∧ bs = cs.flatten

/-! ## Shell driver: the pump -/

/-- Go's `bufio.Reader.ReadRune` on the backend output that is still to be
read: the rune, its size and the output left; `none` is the error return at
the end of the output. -/
def ReadRune (rest : Bytes) : Option (Nat × Nat × Bytes) :=
  match rest with
  | [] => none
  | b :: _ =>
    let d := if b ≥ 0x80 then utf8.DecodeRune rest else (b, 1)
    some (d.1, d.2, rest.drop d.2)

/-- The state of the pump loop of `doSsh`: the backend output still to be
read, the chunks sent on `chs.OutChan`, and the window-change requests
issued, oldest first. -/
structure Pump where
  rest : Bytes
  outChan : List Bytes
  winch : List WindowChange
deriving DecidableEq, Repr

/-- Which arm the `select` of the pump loop of `doSsh` takes. -/
inductive PumpEvent where
  | waitChan
  | awayChan
  | windowChan (s : Bytes)
  | default
deriving DecidableEq, Repr

/-- One iteration of the pump loop of `doSsh`.  In the `default` arm the chunk
is the slice `make([]byte, utf8.RuneLen(rn))` after `utf8.EncodeRune` wrote
into it; a negative length or a slice too short panics. -/
def doSsh.step (ToInt : Bytes → Int) (p : Pump) : PumpEvent → Pump × Outcome
  | .waitChan => (p, .exited)
  | .awayChan => (p, .exited)
  | .windowChan s =>
    match doSsh.window ToInt s with
    | none => (p, .running)
    | some req => ({ p with winch := p.winch ++ [req] }, .running)
  | .default =>
    match ReadRune p.rest with
    | none => (p, .exited)
    | some (rn, size, rest) =>
      if size ≤ 0 ∨ rn = utf8.RuneError then ({ p with rest := rest }, .running)
      else
        let n := utf8.RuneLen rn
        let enc := utf8.EncodeRune rn
        if n < 0 ∨ n < enc.length then ({ p with rest := rest }, .panicked)
        else
          ({ p with rest := rest
                    outChan := p.outChan ++ [enc ++ List.replicate (n.toNat - enc.length) 0] },
           .running)

/-- The pump loop of `doSsh` under the arms its `select` takes, in order: the
state when the loop stops, or when the arms run out. -/
def doSsh.pump (ToInt : Bytes → Int) : Pump → List PumpEvent → Pump × Outcome
  | p, [] => (p, .running)
  | p, e :: es =>
    match doSsh.step ToInt p e with
    | (p', .running) => doSsh.pump ToInt p' es
    | r => r

/-- The invariant of the pump loop on the backend output `stream`: what is
left is a suffix of it, and every chunk sent is a whole rune that stands in
it. -/
def PumpInv (stream : Bytes) (p : Pump) : Prop :=
  (∃ consumed, stream = consumed ++ p.rest) ∧
  ∀ c ∈ p.outChan, WholeRune c ∧ ∃ pre post, stream = pre ++ c ++ post

/-- The buffer of the multiplexer and every flush frame written so far are
concatenations of whole runes. -/
def MuxWhole (m : Mux) : Prop :=
  WholeRunes m.buf ∧ ∀ fr ∈ m.ws, fr.origin = .flush → WholeRunes fr.payload

/-! ## Time-of-day strings -/

/-- The string `HH:MM` of an hour and a minute, zero-padded, as
`Format("15:04")` writes it. -/
def hhmm (h : Fin 24) (m : Fin 60) : Bytes :=
  [48 + h.val / 10, 48 + h.val % 10, 58, 48 + m.val / 10, 48 + m.val % 10]

/-- The minute of the day of an hour and a minute. -/
def minuteOfDay (h : Fin 24) (m : Fin 60) : Nat := 60 * h.val + m.val

/-! ## Teardown, admin close and start-up -/

/-- The call `onlineSession.Delete(key)`: no entry is left under `key`. -/
def Registry.Delete (reg : Registry) (key : Bytes) : Registry :=
  reg.filter (fun e => !(e.1 == key))

/-- The call `onlineSession.LoadOrStore(key, v)`: the registry afterwards, and
whether an entry was already there (in which case nothing is stored). -/
def Registry.LoadOrStore (reg : Registry) (key : Bytes) (v : RegVal) : Registry × Bool :=
  match reg.Load key with
  | some _ => (reg, true)
  | none => (reg ++ [(key, v)], false)

/-- What `doOfflineOnlineSession` leaves behind: the registry, the closer names
a multiplexer received on `close_chan`, the monitor sockets that were sent the
"session ended" text and closed, and whether it returned or panicked. -/
structure Teardown where
  registry : Registry
  closeChan : List Bytes
  notified : List Nat
  outcome : Outcome
deriving DecidableEq, Repr

/-- The function `doOfflineOnlineSession`.  `received` says whether a
multiplexer takes the closer from `close_chan` before the one-second timeout.
The deferred `onlineSession.Delete(sessionId)` runs on every path, also when
`session.Monitors.Range` panics on a nil map.  The monitors map holds the
sockets `ConnectMonitor` stored, none of which is nil. -/
def doOfflineOnlineSession (reg : Registry) (sessionId closer : Bytes) (received : Bool) :
    Teardown :=
  match reg.Load sessionId with
  | some (.session session) =>
    let sent : List Bytes :=
      if closer ≠ [] ∧ session.Chans.isSome then (if received then [closer] else []) else []
    match session.Monitors with
    | none =>
      { registry := reg.Delete sessionId, closeChan := sent, notified := [],
        outcome := .panicked }
    | some monitors =>
      { registry := reg.Delete sessionId, closeChan := sent,
        notified := monitors.map (fun kv => kv.2), outcome := .exited }
  | _ => { registry := reg.Delete sessionId, closeChan := [], notified := [], outcome := .exited }

/-- The result of the query for the ONLINE record of a session id in the
store: the record, `gorm.ErrRecordNotFound`, or another error. -/
inductive StoreLookup where
  | found (session : Session)
  | notFound
  | failed (err : Bytes)
deriving DecidableEq, Repr

/-- The answer of an HTTP handler: the status, and the code of the `ApiError`
it aborted with, if any. -/
structure HttpReply where
  status : Nat
  code : Option ErrCode
deriving DecidableEq, Repr

/-- The function `ConnectClose` from `<-chs.ErrChan` to its last line, on what
the CLOSE driver does: the answer, or `none` when it waits on a channel on
which nothing is sent. -/
def ConnectClose.await (driver : List Action) : Option HttpReply :=
  match errSends driver with
  | [] => none
  | some _ :: _ => some { status := 500, code := some .ErrConnectServer }
  | none :: _ =>
    match respSends driver with
    | [] => none
    | resp :: _ =>
      if resp.Code ≠ 0 then some { status := 400, code := some .ErrBadRequest }
      else some { status := 200, code := none }

/-- The function `ConnectClose`: the registry when the request returns, the
answer, and the teardown if it ran; `none` when the request never returns.
`lookup` is the result of the store query for `ctx.Param("session_id")`, `b`
the outcome of the CLOSE handshake of `doSsh`.  The deferred
`doOfflineOnlineSession` was given `session.SessionId` and the user name when
it was deferred. -/
def ConnectClose (reg : Registry) (isAdmin : Bool) (userName : Bytes) (lookup : StoreLookup)
    (b : SshBackend) (received : Bool) : Option (Registry × HttpReply × Option Teardown) :=
  if !isAdmin then some (reg, { status := 400, code := some .ErrNoPerm }, none)
  else
    match lookup with
    | .notFound => some (reg, { status := 200, code := none }, none)
    | .failed _ => some (reg, { status := 400, code := some .ErrInvalidArgument }, none)
    | .found session =>
      match ConnectClose.await (doSsh.handshake b) with
      | none => none
      | some reply =>
        let t := doOfflineOnlineSession reg session.SessionId userName received
        some (t.registry, reply, some t)

/-- The loop of `Init` over the records the query returned: the registry
afterwards, and whether the loop ran to its end or a teardown panicked. -/
def Init.loop : Registry → List Session → Registry × Outcome
  | reg, [] => (reg, .exited)
  | reg, s :: rest =>
    if s.SessionType = SESSIONTYPE_WEB then
      let t := doOfflineOnlineSession reg s.SessionId [] false
      match t.outcome with
      | .panicked => (t.registry, .panicked)
      | _ => Init.loop t.registry rest
    else
      Init.loop (reg.LoadOrStore s.SessionId (.session { s with Monitors := some [] })).1 rest

/-- The store of persisted session records and the registry. -/
structure Broker where
  store : List Session
  registry : Registry
deriving DecidableEq, Repr

/-- The function `Init`: `queryErr` is the error of the query for the records
with status ONLINE.  No statement of `Init` or of `doOfflineOnlineSession`
writes to the store. -/
def Init (b : Broker) (queryErr : GoError) : Broker × Outcome :=
  if queryErr.isSome then (b, .exited)
  else
    let sessions := b.store.filter (fun s => s.Status = SESSIONSTATUS_ONLINE)
    let r := Init.loop b.registry sessions
    ({ store := b.store, registry := r.1 }, r.2)

/-! ## WebSocket endpoints: the error frame -/

/-- The value of the variable `err` of a WebSocket handler when it returns:
nil, an `*ApiError` with its code, or an error of another type. -/
inductive HandlerErr where
  | nil
  | api (code : ErrCode)
  | other (msg : Bytes)
deriving DecidableEq, Repr

/-- The deferred function of `Connecting` and of `ConnectMonitor` that reports
`err` on the WebSocket: the text frames it writes, each named by the code of
the `ApiError` whose localized message it carries.  It returns without writing
when `err` is nil or is not an `*ApiError`. -/
def wsErrorFrames : HandlerErr → List ErrCode
  | .api code => [code]
  | _ => []

/-- The text frames `Connecting` writes to its WebSocket through the deferred
function, for the attach of `sessionId`. -/
def Connecting.errFrames (reg : Registry) (sessionId : Bytes) : List ErrCode :=
  match (Connecting.gate reg sessionId).2 with
  | .error code => wsErrorFrames (.api code)
  | .ok _ => wsErrorFrames .nil

/-- What `ConnectMonitor` has done when it returns or starts to read from the
monitor socket: the error frames written to the socket, the
`ctx.AbortWithError` calls, the registry, and whether it returned (`exited`),
attached the socket (`running`) or panicked on a nil monitors map. -/
structure MonitorReply where
  frames : List ErrCode
  aborts : List (Nat × ErrCode)
  registry : Registry
  outcome : Outcome
deriving DecidableEq, Repr

/-- The return of `ConnectMonitor` with the variable `err` holding `err`: the
deferred function writes the frame and, for an `*ApiError`, aborts with 400. -/
def ConnectMonitor.exit (err : HandlerErr) (aborts : List (Nat × ErrCode)) (reg : Registry) :
    MonitorReply :=
  { frames := wsErrorFrames err
    aborts := aborts ++ (match err with
      | .api code => [(400, code)]
      | _ => [])
    registry := reg
    outcome := .exited }

/-- The function `ConnectMonitor` after the upgrade, up to the attach of the
socket; `none` when it waits on a channel on which nothing is sent.  `err` is
nil after the upgrade; the paths that call `ctx.AbortWithError` with a fresh
`*ApiError` leave it as it is. -/
def ConnectMonitor (reg : Registry) (isAdmin : Bool) (sessionId : Bytes) (lookup : StoreLookup)
    (b : SshBackend) : Option MonitorReply :=
  let err : HandlerErr := .nil
  if !isAdmin then some (ConnectMonitor.exit err [(400, .ErrNoPerm)] reg)
  else
    match lookup with
    | .notFound =>
      some (ConnectMonitor.exit (.other (str "record not found")) [(400, .ErrInvalidSessionId)]
        (reg.Delete sessionId))
    | .failed e => some (ConnectMonitor.exit (.other e) [(400, .ErrInvalidSessionId)] reg)
    | .found _ =>
      match reg.Load sessionId with
      | none => some (ConnectMonitor.exit err [(400, .ErrInvalidSessionId)] reg)
      | some .other => some (ConnectMonitor.exit err [(400, .ErrInvalidSessionId)] reg)
      | some (.session session) =>
        match session.Monitors with
        | none => some { frames := [], aborts := [], registry := reg, outcome := .panicked }
        | some monitors =>
          if session.SessionType = SESSIONTYPE_CLIENT ∧ monitors = [] then
            match Connect.await (doSsh.handshake b) with
            | .blocked => none
            | .abort _ _ => some (ConnectMonitor.exit (.api .ErrConnectServer) [] reg)
            | .handshaken _ =>
              some { frames := [], aborts := [], registry := reg, outcome := .running }
          else some { frames := [], aborts := [], registry := reg, outcome := .running }

/-! ## Desktop driver: the driver task and its pump -/

/-- Where the pump goroutine of `doGuacd` stands. -/
inductive PumpState where
  | notStarted
  | running
  | exited
deriving DecidableEq, Repr

/-- A joint state of the task running `doGuacd` and of the pump goroutine it
starts: the actions the task has still to perform, the pump, whether the
session has been set OFFLINE, and what was sent on the channels. -/
structure GuacdRun where
  todo : List Action
  pump : PumpState
  offline : Bool
  errChan : List GoError
  respChan : List ServerResp
  outChan : List Bytes
deriving DecidableEq, Repr

/-- What the scheduler and the environment can make happen next. -/
inductive GuacdEvent where
  /-- The task running `doGuacd` performs its next action. -/
  | driver
  /-- In the pump, `t.Read()` returns this instruction. -/
  | read (instruction : Bytes)
  /-- In the pump, `t.Read()` fails. -/
  | readErr
  /-- The pump finds `away_chan` closed. -/
  | away
deriving DecidableEq, Repr

/-- One step of the joint run.  The pump forwards an instruction that is not
empty while it runs, and exits on a read error or on `away_chan`. -/
def GuacdRun.step (r : GuacdRun) : GuacdEvent → GuacdRun
  | .driver =>
    match r.todo with
    | [] => r
    | .sendErr e :: rest => { r with todo := rest, errChan := r.errChan ++ [e] }
    | .sendResp resp :: rest => { r with todo := rest, respChan := r.respChan ++ [resp] }
    | .upsert _ :: rest => { r with todo := rest }
    | .startPump :: rest => { r with todo := rest, pump := .running }
    | .setOffline :: rest => { r with todo := rest, offline := true }
  | .read instruction =>
    if r.pump = .running ∧ ¬ instruction.length ≤ 0 then
      { r with outChan := r.outChan ++ [instruction] }
    else r
  | .readErr => if r.pump = .running then { r with pump := .exited } else r
  | .away => if r.pump = .running then { r with pump := .exited } else r

/-- The joint run of `doGuacd` on a request and a backend, under a schedule. -/
def GuacdRun.run (ctx : GinCtx) (b : GuacdBackend) (schedule : List GuacdEvent) : GuacdRun :=
  schedule.foldl GuacdRun.step
    { todo := doGuacd ctx b, pump := .notStarted, offline := false, errChan := [],
      respChan := [], outChan := [] }

/-- A record of type WEB with status ONLINE, as a desktop session leaves it in
the store. -/
def webRecord : Session :=
  { newGuacdSession createCtx [] openAsset ⟨0, [], []⟩ ⟨0, [], 0⟩ with
    SessionId := str "w1", Status := SESSIONSTATUS_ONLINE }

/-- A record of type CLIENT with status ONLINE, as the gateway posts it. -/
def clientRecord : Session :=
  { webRecord with SessionId := str "c1", SessionType := SESSIONTYPE_CLIENT }

/-- A gateway on which every step of the handshake of `doSsh` succeeds and
the reply has code 0. -/
def goodSsh : SshBackend :=
  { dial := none, newSession := none, requestPty := none, shell := none, marshal := none,
    winWrite := none, readBytes := none,
    unmarshal := (none, { Code := 0, Message := [], SessionId := str "c1", Uid := 5,
                          UserName := str "ann" }) }

/-! # Theorems -/

/-! ## Access window check: proofs -/

theorem checkTimeEntry_eq_true (hm : Bytes) (b : Bool) (s : Bytes) :
    checkTimeEntry hm b s = true ↔ b = true ∨ entryHolds hm s := by
  unfold checkTimeEntry entryHolds
  rcases h : strings.Split s 126 with _ | ⟨lo, _ | ⟨hi, rest⟩⟩
  · simp
  · simp
  · simp only [List.length_cons, ge_iff_le, List.getD_cons_zero, List.getD_cons_succ,
      Bool.or_eq_true, Bool.and_eq_true, decide_eq_true_eq, List.cons.injEq]
    constructor
    · rintro (hb | ⟨⟨-, h1⟩, h2⟩)
      · exact Or.inl hb
      · exact Or.inr ⟨lo, hi, rest, ⟨rfl, rfl, rfl⟩, h1, h2⟩
    · rintro (hb | ⟨lo1, hi1, rest1, ⟨rfl, rfl, rfl⟩, h1, h2⟩)
      · exact Or.inl hb
      · exact Or.inr ⟨⟨by omega, h1⟩, h2⟩

theorem foldl_checkTimeEntry (hm : Bytes) (ts : List Bytes) (b : Bool) :
    ts.foldl (checkTimeEntry hm) b = true ↔ b = true ∨ ∃ s ∈ ts, entryHolds hm s := by
  induction ts generalizing b with
  | nil => simp
  | cons t ts ih =>
    rw [List.foldl_cons, ih, checkTimeEntry_eq_true]
    simp only [List.mem_cons, exists_eq_or_imp]
    tauto

theorem foldl_checkTimeRange_has (week : Int) (hm : Bytes) (rs : List Range) (acc : Bool × Bool) :
    (rs.foldl (checkTimeRange week hm) acc).1 = true ↔
      acc.1 = true ∨ ∃ r ∈ rs, r.Times ≠ [] := by
  induction rs generalizing acc with
  | nil => simp
  | cons r rs ih =>
    rw [List.foldl_cons, ih]
    simp only [checkTimeRange, Bool.or_eq_true, decide_eq_true_eq, List.length_pos,
      List.mem_cons, exists_eq_or_imp]
    tauto

theorem foldl_checkTimeRange_in (week : Int) (hm : Bytes) (rs : List Range) (acc : Bool × Bool) :
    (rs.foldl (checkTimeRange week hm) acc).2 = true ↔
      acc.2 = true ∨ ∃ r ∈ rs, goRem (wrapInt (r.Week + 1)) 7 = week ∧
        ∃ s ∈ r.Times, entryHolds hm s := by
  induction rs generalizing acc with
  | nil => simp
  | cons r rs ih =>
    rw [List.foldl_cons, ih]
    simp only [checkTimeRange, List.mem_cons, exists_eq_or_imp]
    by_cases hw : goRem (wrapInt (r.Week + 1)) 7 = week
    · simp only [hw, if_true, foldl_checkTimeEntry, true_and, or_assoc]
    · simp only [hw, if_false, false_and, false_or]

theorem checkTime_outside (now : Time) (data : AccessAuth) (h : outsideBounds now data) :
    checkTime now data = false := by
  unfold checkTime
  rcases h with ⟨s, hs, hlt⟩ | ⟨e, he, hgt⟩
  · simp [hs, Time.Before, hlt]
  · simp [he, Time.After, hgt]

theorem checkTime_inside (now : Time) (data : AccessAuth) (h : ¬ outsideBounds now data) :
    checkTime now data =
      (!(data.Ranges.foldl (checkTimeRange now.weekday.val now.Format1504) (false, false)).1 ||
        ((data.Ranges.foldl (checkTimeRange now.weekday.val now.Format1504) (false, false)).2
          == data.Allow)) := by
  unfold outsideBounds at h
  push_neg at h
  obtain ⟨h1, h2⟩ := h
  have e1 : (match data.Start with
        | some s => now.Before s
        | none => false) = false := by
    cases hs : data.Start with
    | none => rfl
    | some s => simpa [Time.Before] using h1 s hs
  have e2 : (match data.End with
        | some e => now.After e
        | none => false) = false := by
    cases he : data.End with
    | none => rfl
    | some e => simpa [Time.After] using h2 e he
  unfold checkTime
  simp only [e1, e2]
  simp

theorem weekShift_eq_emod (w : Int) (h0 : -1 ≤ w) (h1 : w < 2 ^ 63 - 1) :
    goRem (wrapInt (w + 1)) 7 = (w + 1) % 7 := by
  have hw : wrapInt (w + 1) = w + 1 := by
    unfold wrapInt
    rw [Int.emod_eq_of_lt (by omega) (by omega)]
    omega
  rw [hw]
  exact Int.tmod_eq_emod (by omega) (by omega)

/-- C1: `checkTime` denies outside the absolute bounds; inside them it allows
when no range lists any times, and otherwise answers `in == allow`, where `in`
says that a range of the weekday of `now` has an entry `lo~hi` with
`lo <= HH:MM(now) <= hi`; the Monday 09:00~17:00 allow-list is denied at every
Sunday 10:00.  The weekday test is the code's `(r.Week+1)%7`, which is the
mathematical `(week + 1) mod 7` for every week from -1 up. -/
theorem checkTime_spec (now : Time) (data : AccessAuth) :
    (outsideBounds now data → checkTime now data = false) ∧
    (¬ outsideBounds now data → (∀ r ∈ data.Ranges, r.Times = []) →
      checkTime now data = true) ∧
    (¬ outsideBounds now data → (∃ r ∈ data.Ranges, r.Times ≠ []) →
      (checkTime now data = true ↔ (inWindow now data ↔ data.Allow = true))) ∧
    (now.weekday = 0 → now.hour = 10 → now.minute = 0 →
      checkTime now mondayOffice = false) ∧
    (∀ r ∈ data.Ranges, -1 ≤ r.Week → r.Week < 2 ^ 63 - 1 →
      goRem (wrapInt (r.Week + 1)) 7 = (r.Week + 1) % 7) := by
  refine ⟨checkTime_outside now data, ?_, ?_, ?_, fun r _ => weekShift_eq_emod r.Week⟩
  · intro hin hno
    rw [checkTime_inside now data hin]
    have : (data.Ranges.foldl (checkTimeRange now.weekday.val now.Format1504)
        (false, false)).1 = false := by
      rw [← Bool.not_eq_true, foldl_checkTimeRange_has]
      simp only [Bool.false_eq_true, false_or, not_exists, not_and, not_not]
      exact hno
    simp [this]
  · intro hin hhas
    rw [checkTime_inside now data hin]
    have h1 : (data.Ranges.foldl (checkTimeRange now.weekday.val now.Format1504)
        (false, false)).1 = true := by
      rw [foldl_checkTimeRange_has]; exact Or.inr hhas
    have h2 := foldl_checkTimeRange_in now.weekday.val now.Format1504 data.Ranges (false, false)
    simp only [Bool.false_eq_true, false_or] at h2
    change _ ↔ inWindow now data at h2
    rw [h1, ← h2]
    cases (data.Ranges.foldl (checkTimeRange now.weekday.val now.Format1504) (false, false)).2 <;>
      cases data.Allow <;> simp
  · intro hw _ _
    have hout : ¬ outsideBounds now mondayOffice := by
      simp [outsideBounds, mondayOffice]
    rw [checkTime_inside now mondayOffice hout]
    have hrem : goRem (wrapInt 1) 7 ≠ 0 := by decide
    simp [mondayOffice, checkTimeRange, hw, hrem]


/-! ## Multiplexer: proofs -/

theorem flushPayloads_append (a b : List WsFrame) :
    flushPayloads (a ++ b) = flushPayloads a ++ flushPayloads b := by
  simp [flushPayloads]

theorem sendMsg_nonempty (m : Mux) (h : m.buf ≠ []) :
    sendMsg true m =
      { m with ws := m.ws ++ [⟨.flush, m.buf⟩], monitors := m.monitors ++ [⟨.flush, m.buf⟩],
               buf := [] } := by
  have : ¬ m.buf.length ≤ 0 := by
    have := List.length_pos.mpr h
    omega
  simp [sendMsg, this]

theorem sendMsg_empty (hasWs : Bool) (m : Mux) (h : m.buf = []) : sendMsg hasWs m = m := by
  simp [sendMsg, h]

theorem sendMsg_delivered (m : Mux) : delivered (sendMsg true m) = delivered m := by
  by_cases hb : m.buf = []
  · rw [sendMsg_empty true m hb]
  · rw [sendMsg_nonempty m hb]
    simp [delivered, flushPayloads_append, flushPayloads]

theorem sendMsg_buf (hasWs : Bool) (m : Mux) : (sendMsg hasWs m).buf = [] := by
  unfold sendMsg
  by_cases hb : m.buf.length ≤ 0
  · have : m.buf = [] := List.length_eq_zero.mp (by omega)
    simp [hb, this]
  · simp [hb]

theorem handleIn_frame (isSssh : Bool) (f : Bytes) (m m' : Mux)
    (h : handleIn isSssh f m = some m') :
    m'.buf = m.buf ∧ m'.ws = m.ws := by
  unfold handleIn at h
  cases isSssh
  · simp at h; subst h; simp
  · cases f with
    | nil => simp at h
    | cons rt msg =>
      simp only [if_true] at h
      split_ifs at h <;> (simp at h; subst h; simp)

theorem step_running_delivered (isSssh : Bool) (m m' : Mux) (e : Event)
    (h : Connecting.step isSssh m e = (m', .running)) :
    delivered m' = delivered m ++ (chunks [e]).flatten := by
  cases e with
  | ctxDone => simp [Connecting.step] at h
  | readWsErr => simp [Connecting.step] at h
  | closeChan c => simp [Connecting.step] at h
  | errChan => simp [Connecting.step] at h
  | inChan f =>
    simp only [Connecting.step] at h
    cases hh : handleIn isSssh f m with
    | none => simp [hh] at h
    | some m1 =>
      simp only [hh, Prod.mk.injEq, and_true] at h
      subst h
      obtain ⟨h1, h2⟩ := handleIn_frame isSssh f m m1 hh
      simp [delivered, chunks, h1, h2]
  | outChan out =>
    simp only [Connecting.step, Prod.mk.injEq, and_true] at h
    subst h
    simp [delivered, chunks]
  | tk =>
    simp only [Connecting.step, Prod.mk.injEq, and_true] at h
    subst h
    simp [sendMsg_delivered, chunks]
  | tk1s =>
    simp only [Connecting.step, Prod.mk.injEq, and_true] at h
    subst h
    simp [delivered, chunks, flushPayloads_append, flushPayloads]

theorem step_stopped_delivered (isSssh : Bool) (m m' : Mux) (e : Event) (o : Outcome)
    (h : Connecting.step isSssh m e = (m', o)) (ho : o ≠ .running) :
    delivered m' = delivered m ∧ chunks [e] = [] := by
  cases e with
  | ctxDone => simp [Connecting.step] at h; simp [← h.1, chunks]
  | readWsErr => simp [Connecting.step] at h; simp [← h.1, chunks]
  | closeChan c =>
    simp only [Connecting.step, Prod.mk.injEq] at h
    rw [← h.1]
    cases isSssh <;> simp [delivered, chunks, flushPayloads_append, flushPayloads]
  | errChan => simp [Connecting.step] at h; simp [← h.1, chunks]
  | inChan f =>
    simp only [Connecting.step] at h
    cases hh : handleIn isSssh f m with
    | none => simp [hh] at h; simp [← h.1, chunks]
    | some m1 => simp [hh] at h; exact absurd h.2.symm ho
  | outChan out => simp [Connecting.step] at h; exact absurd h.2.symm ho
  | tk => simp [Connecting.step] at h; exact absurd h.2.symm ho
  | tk1s => simp [Connecting.step] at h; exact absurd h.2.symm ho

theorem chunks_append (a b : List Event) : chunks (a ++ b) = chunks a ++ chunks b := by
  induction a with
  | nil => rfl
  | cons e es ih => cases e <;> simp [chunks, ih]

theorem chunks_cons (e : Event) (es : List Event) : chunks (e :: es) = chunks [e] ++ chunks es :=
  chunks_append [e] es

theorem loop_running_delivered (isSssh : Bool) (evs : List Event) (m m' : Mux)
    (h : Connecting.loop isSssh m evs = (m', .running)) :
    delivered m' = delivered m ++ (chunks evs).flatten := by
  induction evs generalizing m with
  | nil =>
    simp only [Connecting.loop, Prod.mk.injEq, and_true] at h
    subst h
    simp [chunks]
  | cons e es ih =>
    unfold Connecting.loop at h
    rcases hstep : Connecting.step isSssh m e with ⟨m1, o⟩
    rw [hstep] at h
    cases o with
    | running =>
      simp only at h
      rw [ih m1 h, step_running_delivered isSssh m m1 e hstep, chunks_cons e es]
      simp
    | exited => simp at h
    | panicked => simp at h

theorem loop_append_running (isSssh : Bool) (evs : List Event) (m m1 : Mux) (rest : List Event)
    (h : Connecting.loop isSssh m evs = (m1, .running)) :
    Connecting.loop isSssh m (evs ++ rest) = Connecting.loop isSssh m1 rest := by
  induction evs generalizing m with
  | nil =>
    simp only [Connecting.loop, Prod.mk.injEq, and_true] at h
    subst h
    rfl
  | cons e es ih =>
    unfold Connecting.loop at h
    rw [List.cons_append]
    conv_lhs => unfold Connecting.loop
    rcases hstep : Connecting.step isSssh m e with ⟨m2, o⟩
    rw [hstep] at h
    cases o with
    | running => simp only at h ⊢; exact ih m2 h
    | exited => simp at h
    | panicked => simp at h

/-- C2: while the loop of `Connecting` runs, the payloads of the flush frames
written so far followed by the content of `buf` are the chunks received on
`out_chan`, in order; a flush writes the whole of `buf` as one frame and
empties it, a flush on an empty `buf` writes nothing; and when the loop stops,
the deferred flush makes the flush frames carry exactly the chunks received. -/
theorem mux_flush_concat (isSssh : Bool) (evs : List Event) (m : Mux)
    (h : Connecting.loop isSssh Mux.init evs = (m, .running)) :
    (flushPayloads m.ws).flatten ++ m.buf = (chunks evs).flatten ∧
    (m.buf ≠ [] → sendMsg true m =
      { m with ws := m.ws ++ [⟨.flush, m.buf⟩], monitors := m.monitors ++ [⟨.flush, m.buf⟩],
               buf := [] }) ∧
    (m.buf = [] → sendMsg true m = m) ∧
    (∀ e m' o, Connecting.step isSssh m e = (m', o) → o ≠ .running →
      ∃ fin, Connecting.run isSssh Mux.init (evs ++ [e]) = some fin ∧
        (flushPayloads fin.ws).flatten = (chunks (evs ++ [e])).flatten ∧ fin.buf = []) := by
  have hd := loop_running_delivered isSssh evs Mux.init m h
  have h0 : delivered Mux.init = [] := rfl
  rw [h0, List.nil_append] at hd
  refine ⟨hd, sendMsg_nonempty m, sendMsg_empty true m, ?_⟩
  intro e m' o hstep ho
  have hloop : Connecting.loop isSssh Mux.init (evs ++ [e]) = (m', o) := by
    rw [loop_append_running isSssh evs Mux.init m [e] h]
    unfold Connecting.loop
    rw [hstep]
    cases o with
    | running => exact absurd rfl ho
    | exited => rfl
    | panicked => rfl
  obtain ⟨hdel, hch⟩ := step_stopped_delivered isSssh m m' e o hstep ho
  refine ⟨sendMsg true m', ?_, ?_, sendMsg_buf true m'⟩
  · unfold Connecting.run
    rw [hloop]
    cases o with
    | running => exact absurd rfl ho
    | exited => rfl
    | panicked => rfl
  · have h1 := sendMsg_delivered m'
    unfold delivered at h1 hdel
    rw [sendMsg_buf, List.append_nil] at h1
    rw [h1, hdel, chunks_append, hch, List.append_nil]
    exact hd

/-- C2 at a concrete run: after the chunks "ab" and "c" with one flush tick
between them, the frame "ab" has been written and "c" is buffered. -/
theorem mux_flush_concat_witness :
    Connecting.loop true Mux.init sampleEvents = (sampleState, .running) ∧
    (flushPayloads sampleState.ws).flatten ++ sampleState.buf = (chunks sampleEvents).flatten :=
  ⟨by decide, (mux_flush_concat true sampleEvents sampleState (by decide)).1⟩

/-! ## Client frames: proofs -/

theorem readWsMsg_mem (msgs : List WsMsg) (f : Bytes) (hf : f ∈ readWsMsg msgs) :
    f ≠ [] ∧ ∃ w ∈ msgs, w.t = TextMessage ∧ w.msg = f := by
  induction msgs with
  | nil => simp [readWsMsg] at hf
  | cons w ws ih =>
    unfold readWsMsg at hf
    by_cases h0 : w.msg.length ≤ 0
    · simp only [h0, if_true] at hf
      obtain ⟨h1, w', hw', h2⟩ := ih hf
      exact ⟨h1, w', List.mem_cons_of_mem _ hw', h2⟩
    · simp only [h0, if_false] at hf
      by_cases ht : w.t = TextMessage
      · simp only [ht, if_true, List.mem_cons] at hf
        rcases hf with rfl | hf
        · refine ⟨?_, w, List.mem_cons_self _ _, ht, rfl⟩
          intro hnil
          rw [hnil] at h0
          exact h0 (Nat.le_refl 0)
        · obtain ⟨h1, w', hw', h2⟩ := ih hf
          exact ⟨h1, w', List.mem_cons_of_mem _ hw', h2⟩
      · simp only [ht, if_false] at hf
        obtain ⟨h1, w', hw', h2⟩ := ih hf
        exact ⟨h1, w', List.mem_cons_of_mem _ hw', h2⟩

/-- C4: every frame `readWsMsg` puts on `in_chan` is a non-empty text frame,
so the tag read never fails; on a shell session tag '1' writes exactly `f[1:]`
to `win`, tag '9' changes nothing, tag 'w' posts exactly `f[1:]` on
`window_chan`; on a desktop session the whole frame is written to `win`. -/
theorem inChan_dispatch (msgs : List WsMsg) (f : Bytes) (m : Mux)
    (hf : f ∈ readWsMsg msgs) :
    f ≠ [] ∧ (∃ w ∈ msgs, w.t = TextMessage ∧ w.msg = f) ∧
    (handleIn true f m).isSome = true ∧
    (f.head? = some 49 → handleIn true f m = some { m with win := m.win ++ [f.drop 1] }) ∧
    (f.head? = some 57 → handleIn true f m = some m) ∧
    (f.head? = some 119 →
      handleIn true f m = some { m with windowChan := m.windowChan ++ [f.drop 1] }) ∧
    handleIn false f m = some { m with win := m.win ++ [f] } ∧
    (∀ isSssh, Connecting.step isSssh m (.inChan f) =
      ((handleIn isSssh f m).getD m, .running)) := by
  obtain ⟨hne, hw⟩ := readWsMsg_mem msgs f hf
  cases f with
  | nil => exact absurd rfl hne
  | cons rt msg =>
    refine ⟨hne, hw, ?_, ?_, ?_, ?_, ?_, ?_⟩
    · simp only [handleIn, if_true]
      split_ifs <;> rfl
    · intro h
      simp only [List.head?_cons, Option.some.injEq] at h
      simp [handleIn, h]
    · intro h
      simp only [List.head?_cons, Option.some.injEq] at h
      simp [handleIn, h]
    · intro h
      simp only [List.head?_cons, Option.some.injEq] at h
      simp [handleIn, h]
    · simp [handleIn]
    · intro isSssh
      cases isSssh
      · simp [Connecting.step, handleIn]
      · simp only [Connecting.step, handleIn, if_true]
        split_ifs <;> rfl

/-- C4 at a concrete input: of a binary message, an empty message and the text
message "1ls", only the last reaches `in_chan`, and the shell session writes
"ls" to `win`. -/
theorem inChan_dispatch_witness :
    readWsMsg [⟨2, str "1b"⟩, ⟨1, []⟩, ⟨1, str "1ls"⟩] = [str "1ls"] ∧
    handleIn true (str "1ls") Mux.init = some { Mux.init with win := [str "ls"] } :=
  ⟨by decide,
   ((inChan_dispatch [⟨2, str "1b"⟩, ⟨1, []⟩, ⟨1, str "1ls"⟩] (str "1ls") Mux.init
      (by decide)).2.2.2.1 (by decide))⟩

/-! ## UTF-8: proofs -/

theorem lor_eq_add (a b k : Nat) (ha : a % 2 ^ k = 0) (hb : b < 2 ^ k) : a ||| b = a + b := by
  have h := Nat.mul_add_lt_is_or hb (a / 2 ^ k)
  have ha' : 2 ^ k * (a / 2 ^ k) = a := by
    have := Nat.div_add_mod a (2 ^ k)
    omega
  rw [ha'] at h
  exact h.symm

theorem and_7 (b : Nat) : b &&& 7 = b % 8 := Nat.and_pow_two_sub_one_eq_mod b 3
theorem and_0F (b : Nat) : b &&& 0x0F = b % 16 := Nat.and_pow_two_sub_one_eq_mod b 4
theorem and_1F (b : Nat) : b &&& 0x1F = b % 32 := Nat.and_pow_two_sub_one_eq_mod b 5
theorem and_3F (b : Nat) : b &&& 0x3F = b % 64 := Nat.and_pow_two_sub_one_eq_mod b 6

theorem first_eq (b x : Nat)
    (h : (b < 0x80 ∧ x = 0xF0) ∨ ((0x80 ≤ b ∧ b < 0xC2 ∨ 0xF5 ≤ b) ∧ x = 0xF1) ∨
      (0xC2 ≤ b ∧ b < 0xE0 ∧ x = 0x02) ∨ (b = 0xE0 ∧ x = 0x13) ∨
      (0xE1 ≤ b ∧ b ≤ 0xEF ∧ b ≠ 0xED ∧ x = 0x03) ∨ (b = 0xED ∧ x = 0x23) ∨
      (b = 0xF0 ∧ x = 0x34) ∨ (0xF1 ≤ b ∧ b ≤ 0xF3 ∧ x = 0x04) ∨ (b = 0xF4 ∧ x = 0x44)) :
    utf8.first b = x := by
  unfold utf8.first
  split_ifs <;> omega

theorem first_cases (b : Nat) :
    (b < 0x80 ∧ utf8.first b = 0xF0) ∨ utf8.first b = 0xF1 ∨
    (0xC2 ≤ b ∧ b < 0xE0 ∧ utf8.first b = 0x02) ∨
    (b = 0xE0 ∧ utf8.first b = 0x13) ∨
    (0xE1 ≤ b ∧ b ≤ 0xEF ∧ b ≠ 0xED ∧ utf8.first b = 0x03) ∨
    (b = 0xED ∧ utf8.first b = 0x23) ∨
    (b = 0xF0 ∧ utf8.first b = 0x34) ∨
    (0xF1 ≤ b ∧ b ≤ 0xF3 ∧ utf8.first b = 0x04) ∨
    (b = 0xF4 ∧ utf8.first b = 0x44) := by
  have hr : b < 0x80 ∨ (0x80 ≤ b ∧ b < 0xC2 ∨ 0xF5 ≤ b) ∨ (0xC2 ≤ b ∧ b < 0xE0) ∨ b = 0xE0 ∨
      (0xE1 ≤ b ∧ b ≤ 0xEF ∧ b ≠ 0xED) ∨ b = 0xED ∨ b = 0xF0 ∨ (0xF1 ≤ b ∧ b ≤ 0xF3) ∨
      b = 0xF4 := by omega
  rcases hr with h | h | h | h | h | h | h | h | h
  · exact Or.inl ⟨h, first_eq b _ (by omega)⟩
  · exact Or.inr (Or.inl (first_eq b _ (by omega)))
  · exact Or.inr (Or.inr (Or.inl ⟨h.1, h.2, first_eq b _ (by omega)⟩))
  · exact Or.inr (Or.inr (Or.inr (Or.inl ⟨h, first_eq b _ (by omega)⟩)))
  · exact Or.inr (Or.inr (Or.inr (Or.inr (Or.inl ⟨h.1, h.2.1, h.2.2, first_eq b _ (by omega)⟩))))
  · exact Or.inr (Or.inr (Or.inr (Or.inr (Or.inr (Or.inl ⟨h, first_eq b _ (by omega)⟩)))))
  · exact Or.inr (Or.inr (Or.inr (Or.inr (Or.inr (Or.inr (Or.inl ⟨h, first_eq b _ (by omega)⟩))))))
  · exact Or.inr (Or.inr (Or.inr (Or.inr (Or.inr (Or.inr (Or.inr
      (Or.inl ⟨h.1, h.2, first_eq b _ (by omega)⟩)))))))
  · exact Or.inr (Or.inr (Or.inr (Or.inr (Or.inr (Or.inr (Or.inr
      (Or.inr ⟨h, first_eq b _ (by omega)⟩)))))))

theorem dec2 (p0 b1 : Nat) :
    (p0 &&& 0x1F) <<< 6 ||| (b1 &&& 0x3F) = (p0 % 32) * 64 + b1 % 64 := by
  rw [and_1F, and_3F, Nat.shiftLeft_eq]
  exact lor_eq_add (p0 % 32 * 2 ^ 6) (b1 % 64) 6 (by omega) (by omega)

theorem dec3 (p0 b1 b2 : Nat) :
    (p0 &&& 0x0F) <<< 12 ||| (b1 &&& 0x3F) <<< 6 ||| (b2 &&& 0x3F) =
      (p0 % 16) * 4096 + (b1 % 64) * 64 + b2 % 64 := by
  rw [and_0F, and_3F, and_3F, Nat.shiftLeft_eq, Nat.shiftLeft_eq]
  rw [lor_eq_add (p0 % 16 * 2 ^ 12) (b1 % 64 * 2 ^ 6) 12 (by omega) (by omega)]
  exact lor_eq_add (p0 % 16 * 2 ^ 12 + b1 % 64 * 2 ^ 6) (b2 % 64) 6 (by omega) (by omega)

theorem dec4 (p0 b1 b2 b3 : Nat) :
    (p0 &&& 0x07) <<< 18 ||| (b1 &&& 0x3F) <<< 12 ||| (b2 &&& 0x3F) <<< 6 ||| (b3 &&& 0x3F) =
      (p0 % 8) * 262144 + (b1 % 64) * 4096 + (b2 % 64) * 64 + b3 % 64 := by
  rw [and_7, and_3F, and_3F, and_3F, Nat.shiftLeft_eq, Nat.shiftLeft_eq, Nat.shiftLeft_eq]
  rw [lor_eq_add (p0 % 8 * 2 ^ 18) (b1 % 64 * 2 ^ 12) 18 (by omega) (by omega)]
  rw [lor_eq_add (p0 % 8 * 2 ^ 18 + b1 % 64 * 2 ^ 12) (b2 % 64 * 2 ^ 6) 12 (by omega) (by omega)]
  exact lor_eq_add (p0 % 8 * 2 ^ 18 + b1 % 64 * 2 ^ 12 + b2 % 64 * 2 ^ 6) (b3 % 64) 6
    (by omega) (by omega)

theorem enc_cont (v : Nat) : 0x80 ||| (v % 256 &&& 0x3F) = 0x80 + v % 64 := by
  rw [and_3F]
  have : v % 256 % 64 = v % 64 := by omega
  rw [this]
  exact lor_eq_add _ _ 7 (by norm_num) (by omega)

theorem EncodeRune_1 (r : Nat) (h : r ≤ 0x7F) : utf8.EncodeRune r = [r] := by
  unfold utf8.EncodeRune
  rw [if_pos h, Nat.mod_eq_of_lt (by omega)]

theorem EncodeRune_2 (r : Nat) (h1 : 0x7F < r) (h2 : r ≤ 0x7FF) :
    utf8.EncodeRune r = [0xC0 + r / 64, 0x80 + r % 64] := by
  unfold utf8.EncodeRune
  rw [if_neg (by omega), if_pos h2, enc_cont, Nat.shiftRight_eq_div_pow]
  rw [lor_eq_add 0xC0 (r / 2 ^ 6 % 256) 6 (by norm_num) (by omega)]
  have : r / 2 ^ 6 % 256 = r / 64 := by omega
  rw [this]

theorem EncodeRune_3 (r : Nat) (h1 : 0x7FF < r) (h2 : r ≤ 0xFFFF)
    (hs : ¬ (0xD800 ≤ r ∧ r ≤ 0xDFFF)) :
    utf8.EncodeRune r = [0xE0 + r / 4096, 0x80 + r / 64 % 64, 0x80 + r % 64] := by
  unfold utf8.EncodeRune utf8.MaxRune
  rw [if_neg (by omega), if_neg (by omega), if_neg (by omega), if_pos h2, enc_cont, enc_cont,
    Nat.shiftRight_eq_div_pow, Nat.shiftRight_eq_div_pow]
  rw [lor_eq_add 0xE0 (r / 2 ^ 12 % 256) 5 (by norm_num) (by omega)]
  have : r / 2 ^ 12 % 256 = r / 4096 := by omega
  rw [this]

theorem EncodeRune_4 (r : Nat) (h1 : 0xFFFF < r) (h2 : r ≤ 0x10FFFF) :
    utf8.EncodeRune r =
      [0xF0 + r / 262144, 0x80 + r / 4096 % 64, 0x80 + r / 64 % 64, 0x80 + r % 64] := by
  unfold utf8.EncodeRune utf8.MaxRune
  rw [if_neg (by omega), if_neg (by omega), if_neg (by omega), if_neg (by omega), enc_cont,
    enc_cont, enc_cont, Nat.shiftRight_eq_div_pow, Nat.shiftRight_eq_div_pow,
    Nat.shiftRight_eq_div_pow]
  rw [lor_eq_add 0xF0 (r / 2 ^ 18 % 256) 4 (by norm_num) (by omega)]
  have : r / 2 ^ 18 % 256 = r / 262144 := by omega
  rw [this]

/-- What `utf8.DecodeRune` returns besides `(RuneError, 0)` and
`(RuneError, 1)`: one of the four well-formed shapes, in arithmetic. -/
theorem DecodeRune_shape (p : Bytes) (r size : Nat) (h : utf8.DecodeRune p = (r, size))
    (hne : ¬ (r = utf8.RuneError ∧ size ≤ 1)) :
    (∃ t, p = r :: t ∧ r < 0x80 ∧ size = 1) ∨
    (∃ p0 b1 t, p = p0 :: b1 :: t ∧ 0xC2 ≤ p0 ∧ p0 < 0xE0 ∧ 0x80 ≤ b1 ∧ b1 ≤ 0xBF ∧
      r = (p0 % 32) * 64 + b1 % 64 ∧ size = 2) ∨
    (∃ p0 b1 b2 t, p = p0 :: b1 :: b2 :: t ∧ 0xE0 ≤ p0 ∧ p0 ≤ 0xEF ∧
      (p0 = 0xE0 → 0xA0 ≤ b1) ∧ (p0 = 0xED → b1 ≤ 0x9F) ∧ 0x80 ≤ b1 ∧ b1 ≤ 0xBF ∧
      0x80 ≤ b2 ∧ b2 ≤ 0xBF ∧ r = (p0 % 16) * 4096 + (b1 % 64) * 64 + b2 % 64 ∧ size = 3) ∨
    (∃ p0 b1 b2 b3 t, p = p0 :: b1 :: b2 :: b3 :: t ∧ 0xF0 ≤ p0 ∧ p0 ≤ 0xF4 ∧
      (p0 = 0xF0 → 0x90 ≤ b1) ∧ (p0 = 0xF4 → b1 ≤ 0x8F) ∧ 0x80 ≤ b1 ∧ b1 ≤ 0xBF ∧
      0x80 ≤ b2 ∧ b2 ≤ 0xBF ∧ 0x80 ≤ b3 ∧ b3 ≤ 0xBF ∧
      r = (p0 % 8) * 262144 + (b1 % 64) * 4096 + (b2 % 64) * 64 + b3 % 64 ∧ size = 4) := by
  cases p with
  | nil =>
    simp only [utf8.DecodeRune, Prod.mk.injEq] at h
    exact absurd ⟨h.1.symm, by omega⟩ hne
  | cons p0 t1 =>
    unfold utf8.DecodeRune at h
    rcases first_cases p0 with ⟨hb, hf⟩ | hf | ⟨hb, hb', hf⟩ | ⟨hb, hf⟩ | ⟨hb, hb', hb'', hf⟩ |
      ⟨hb, hf⟩ | ⟨hb, hf⟩ | ⟨hb, hb', hf⟩ | ⟨hb, hf⟩
    · simp [hf] at h
      exact Or.inl ⟨t1, by rw [h.1], by omega, h.2.symm⟩
    · simp [hf] at h
      exact absurd ⟨h.1.symm, by omega⟩ hne
    · have e1 : (2 : Nat) &&& 7 = 2 := by decide
      have e2 : (2 : Nat) >>> 4 = 0 := by decide
      simp only [hf, e1, e2, utf8.acceptRanges, ge_iff_le, Nat.reduceLeDiff, if_false,
        if_true, le_refl, dec2] at h
      cases t1 with
      | nil => simp at h; exact absurd ⟨h.1.symm, by omega⟩ hne
      | cons b1 t2 =>
        by_cases hb1 : b1 < 128 ∨ 191 < b1
        · simp [hb1] at h; exact absurd ⟨h.1.symm, by omega⟩ hne
        · simp [hb1] at h
          rw [if_neg (by omega), Prod.mk.injEq] at h
          exact Or.inr (Or.inl ⟨p0, b1, t2, rfl, by omega, by omega, by omega, by omega,
            h.1.symm, h.2.symm⟩)
    · have e1 : (19 : Nat) &&& 7 = 3 := by decide
      have e2 : (19 : Nat) >>> 4 = 1 := by decide
      simp only [hf, e1, e2, utf8.acceptRanges, ge_iff_le, Nat.reduceLeDiff, if_false,
        if_true, le_refl, dec3, OfNat.ofNat_ne_zero, OfNat.ofNat_ne_one, Nat.reduceEqDiff,
        OfNat.zero_ne_ofNat, OfNat.one_ne_ofNat] at h
      cases t1 with
      | nil => simp at h; exact absurd ⟨h.1.symm, by omega⟩ hne
      | cons b1 t2 =>
        by_cases hb1 : b1 < 160 ∨ 191 < b1
        · simp [hb1] at h; exact absurd ⟨h.1.symm, by omega⟩ hne
        · cases t2 with
          | nil => simp at h; exact absurd ⟨h.1.symm, by omega⟩ hne
          | cons b2 t3 =>
            by_cases hb2 : b2 < 128 ∨ 191 < b2
            · simp [hb1, hb2] at h; exact absurd ⟨h.1.symm, by omega⟩ hne
            · simp [hb1, hb2] at h
              rw [if_neg (by omega), Prod.mk.injEq] at h
              exact Or.inr (Or.inr (Or.inl ⟨p0, b1, b2, t3, rfl, by omega, by omega, by omega,
                by omega, by omega, by omega, by omega, by omega, h.1.symm, h.2.symm⟩))
    · have e1 : (3 : Nat) &&& 7 = 3 := by decide
      have e2 : (3 : Nat) >>> 4 = 0 := by decide
      simp only [hf, e1, e2, utf8.acceptRanges, ge_iff_le, Nat.reduceLeDiff, if_false,
        if_true, le_refl, dec3, OfNat.ofNat_ne_zero, OfNat.ofNat_ne_one, Nat.reduceEqDiff,
        OfNat.zero_ne_ofNat, OfNat.one_ne_ofNat] at h
      cases t1 with
      | nil => simp at h; exact absurd ⟨h.1.symm, by omega⟩ hne
      | cons b1 t2 =>
        by_cases hb1 : b1 < 128 ∨ 191 < b1
        · simp [hb1] at h; exact absurd ⟨h.1.symm, by omega⟩ hne
        · cases t2 with
          | nil => simp at h; exact absurd ⟨h.1.symm, by omega⟩ hne
          | cons b2 t3 =>
            by_cases hb2 : b2 < 128 ∨ 191 < b2
            · simp [hb1, hb2] at h; exact absurd ⟨h.1.symm, by omega⟩ hne
            · simp [hb1, hb2] at h
              rw [if_neg (by omega), Prod.mk.injEq] at h
              exact Or.inr (Or.inr (Or.inl ⟨p0, b1, b2, t3, rfl, by omega, by omega, by omega,
                by omega, by omega, by omega, by omega, by omega, h.1.symm, h.2.symm⟩))
    · have e1 : (35 : Nat) &&& 7 = 3 := by decide
      have e2 : (35 : Nat) >>> 4 = 2 := by decide
      simp only [hf, e1, e2, utf8.acceptRanges, ge_iff_le, Nat.reduceLeDiff, if_false,
        if_true, le_refl, dec3, OfNat.ofNat_ne_zero, OfNat.ofNat_ne_one, Nat.reduceEqDiff,
        OfNat.zero_ne_ofNat, OfNat.one_ne_ofNat] at h
      cases t1 with
      | nil => simp at h; exact absurd ⟨h.1.symm, by omega⟩ hne
      | cons b1 t2 =>
        by_cases hb1 : b1 < 128 ∨ 159 < b1
        · simp [hb1] at h; exact absurd ⟨h.1.symm, by omega⟩ hne
        · cases t2 with
          | nil => simp at h; exact absurd ⟨h.1.symm, by omega⟩ hne
          | cons b2 t3 =>
            by_cases hb2 : b2 < 128 ∨ 191 < b2
            · simp [hb1, hb2] at h; exact absurd ⟨h.1.symm, by omega⟩ hne
            · simp [hb1, hb2] at h
              rw [if_neg (by omega), Prod.mk.injEq] at h
              exact Or.inr (Or.inr (Or.inl ⟨p0, b1, b2, t3, rfl, by omega, by omega, by omega,
                by omega, by omega, by omega, by omega, by omega, h.1.symm, h.2.symm⟩))
    · have e1 : (52 : Nat) &&& 7 = 4 := by decide
      have e2 : (52 : Nat) >>> 4 = 3 := by decide
      simp only [hf, e1, e2, utf8.acceptRanges, ge_iff_le, Nat.reduceLeDiff, if_false,
        if_true, le_refl, dec4, OfNat.ofNat_ne_zero, OfNat.ofNat_ne_one, Nat.reduceEqDiff,
        OfNat.zero_ne_ofNat, OfNat.one_ne_ofNat] at h
      cases t1 with
      | nil => simp at h; exact absurd ⟨h.1.symm, by omega⟩ hne
      | cons b1 t2 =>
        by_cases hb1 : b1 < 144 ∨ 191 < b1
        · simp [hb1] at h; exact absurd ⟨h.1.symm, by omega⟩ hne
        · cases t2 with
          | nil => simp at h; exact absurd ⟨h.1.symm, by omega⟩ hne
          | cons b2 t3 =>
            by_cases hb2 : b2 < 128 ∨ 191 < b2
            · simp [hb1, hb2] at h; exact absurd ⟨h.1.symm, by omega⟩ hne
            · cases t3 with
              | nil => simp at h; exact absurd ⟨h.1.symm, by omega⟩ hne
              | cons b3 t4 =>
                by_cases hb3 : b3 < 128 ∨ 191 < b3
                · simp [hb1, hb2, hb3] at h; exact absurd ⟨h.1.symm, by omega⟩ hne
                · simp [hb1, hb2, hb3] at h
                  rw [if_neg (by omega), Prod.mk.injEq] at h
                  exact Or.inr (Or.inr (Or.inr ⟨p0, b1, b2, b3, t4, rfl, by omega, by omega,
                    by omega, by omega, by omega, by omega, by omega, by omega, by omega,
                    by omega, h.1.symm, h.2.symm⟩))
    · have e1 : (4 : Nat) &&& 7 = 4 := by decide
      have e2 : (4 : Nat) >>> 4 = 0 := by decide
      simp only [hf, e1, e2, utf8.acceptRanges, ge_iff_le, Nat.reduceLeDiff, if_false,
        if_true, le_refl, dec4, OfNat.ofNat_ne_zero, OfNat.ofNat_ne_one, Nat.reduceEqDiff,
        OfNat.zero_ne_ofNat, OfNat.one_ne_ofNat] at h
      cases t1 with
      | nil => simp at h; exact absurd ⟨h.1.symm, by omega⟩ hne
      | cons b1 t2 =>
        by_cases hb1 : b1 < 128 ∨ 191 < b1
        · simp [hb1] at h; exact absurd ⟨h.1.symm, by omega⟩ hne
        · cases t2 with
          | nil => simp at h; exact absurd ⟨h.1.symm, by omega⟩ hne
          | cons b2 t3 =>
            by_cases hb2 : b2 < 128 ∨ 191 < b2
            · simp [hb1, hb2] at h; exact absurd ⟨h.1.symm, by omega⟩ hne
            · cases t3 with
              | nil => simp at h; exact absurd ⟨h.1.symm, by omega⟩ hne
              | cons b3 t4 =>
                by_cases hb3 : b3 < 128 ∨ 191 < b3
                · simp [hb1, hb2, hb3] at h; exact absurd ⟨h.1.symm, by omega⟩ hne
                · simp [hb1, hb2, hb3] at h
                  rw [if_neg (by omega), Prod.mk.injEq] at h
                  exact Or.inr (Or.inr (Or.inr ⟨p0, b1, b2, b3, t4, rfl, by omega, by omega,
                    by omega, by omega, by omega, by omega, by omega, by omega, by omega,
                    by omega, h.1.symm, h.2.symm⟩))
    · have e1 : (68 : Nat) &&& 7 = 4 := by decide
      have e2 : (68 : Nat) >>> 4 = 4 := by decide
      simp only [hf, e1, e2, utf8.acceptRanges, ge_iff_le, Nat.reduceLeDiff, if_false,
        if_true, le_refl, dec4, OfNat.ofNat_ne_zero, OfNat.ofNat_ne_one, Nat.reduceEqDiff,
        OfNat.zero_ne_ofNat, OfNat.one_ne_ofNat] at h
      cases t1 with
      | nil => simp at h; exact absurd ⟨h.1.symm, by omega⟩ hne
      | cons b1 t2 =>
        by_cases hb1 : b1 < 128 ∨ 143 < b1
        · simp [hb1] at h; exact absurd ⟨h.1.symm, by omega⟩ hne
        · cases t2 with
          | nil => simp at h; exact absurd ⟨h.1.symm, by omega⟩ hne
          | cons b2 t3 =>
            by_cases hb2 : b2 < 128 ∨ 191 < b2
            · simp [hb1, hb2] at h; exact absurd ⟨h.1.symm, by omega⟩ hne
            · cases t3 with
              | nil => simp at h; exact absurd ⟨h.1.symm, by omega⟩ hne
              | cons b3 t4 =>
                by_cases hb3 : b3 < 128 ∨ 191 < b3
                · simp [hb1, hb2, hb3] at h; exact absurd ⟨h.1.symm, by omega⟩ hne
                · simp [hb1, hb2, hb3] at h
                  rw [if_neg (by omega), Prod.mk.injEq] at h
                  exact Or.inr (Or.inr (Or.inr ⟨p0, b1, b2, b3, t4, rfl, by omega, by omega,
                    by omega, by omega, by omega, by omega, by omega, by omega, by omega,
                    by omega, h.1.symm, h.2.symm⟩))

/-- A rune `utf8.DecodeRune` returns that is not the replacement rune is a
scalar value, its width is the length of its shortest encoding, and encoding
it again gives back the bytes that were decoded. -/
theorem DecodeRune_roundtrip (p : Bytes) (r size : Nat) (h : utf8.DecodeRune p = (r, size))
    (hr : r ≠ utf8.RuneError) :
    ValidRune r ∧ utf8.EncodeRune r = p.take size ∧ utf8.RuneLen r = size ∧
      size = minimalLen r ∧ 1 ≤ size ∧ size ≤ 4 := by
  have hne : ¬ (r = utf8.RuneError ∧ size ≤ 1) := fun hh => hr hh.1
  rcases DecodeRune_shape p r size h hne with
    ⟨t, rfl, h1, rfl⟩ | ⟨p0, b1, t, rfl, h0, h0', h1, h1', rfl, rfl⟩ |
    ⟨p0, b1, b2, t, rfl, h0, h0', ha, hb, h1, h1', h2, h2', rfl, rfl⟩ |
    ⟨p0, b1, b2, b3, t, rfl, h0, h0', ha, hb, h1, h1', h2, h2', h3, h3', rfl, rfl⟩
  · refine ⟨⟨by omega, by omega⟩, ?_, ?_, ?_, by omega, by omega⟩
    · rw [EncodeRune_1 r (by omega)]; rfl
    · unfold utf8.RuneLen; rw [if_pos (by omega)]; rfl
    · unfold minimalLen; rw [if_pos (by omega)]
  · refine ⟨⟨by omega, by omega⟩, ?_, ?_, ?_, by omega, by omega⟩
    · rw [EncodeRune_2 _ (by omega) (by omega)]
      simp only [List.take_succ_cons, List.take_zero, List.cons.injEq, and_true]
      constructor <;> omega
    · unfold utf8.RuneLen; rw [if_neg (by omega), if_pos (by omega)]; rfl
    · unfold minimalLen; rw [if_neg (by omega), if_pos (by omega)]
  · refine ⟨⟨by omega, by omega⟩, ?_, ?_, ?_, by omega, by omega⟩
    · rw [EncodeRune_3 _ (by omega) (by omega) (by omega)]
      simp only [List.take_succ_cons, List.take_zero, List.cons.injEq, and_true]
      refine ⟨?_, ?_, ?_⟩ <;> omega
    · unfold utf8.RuneLen
      rw [if_neg (by omega), if_neg (by omega), if_neg (by omega), if_pos (by omega)]; rfl
    · unfold minimalLen; rw [if_neg (by omega), if_neg (by omega), if_pos (by omega)]
  · refine ⟨⟨by omega, by omega⟩, ?_, ?_, ?_, by omega, by omega⟩
    · rw [EncodeRune_4 _ (by omega) (by omega)]
      simp only [List.take_succ_cons, List.take_zero, List.cons.injEq, and_true]
      refine ⟨?_, ?_, ?_, ?_⟩ <;> omega
    · unfold utf8.RuneLen utf8.MaxRune
      rw [if_neg (by omega), if_neg (by omega), if_neg (by omega), if_neg (by omega),
        if_pos (by omega)]; rfl
    · unfold minimalLen; rw [if_neg (by omega), if_neg (by omega), if_neg (by omega)]

theorem EncodeRune_length (r : Nat) (hv : ValidRune r) :
    (utf8.EncodeRune r).length = minimalLen r := by
  obtain ⟨h1, h2⟩ := hv
  unfold minimalLen
  by_cases c1 : r < 0x80
  · rw [if_pos c1, EncodeRune_1 r (by omega)]; rfl
  · by_cases c2 : r < 0x800
    · rw [if_neg c1, if_pos c2, EncodeRune_2 r (by omega) (by omega)]; rfl
    · by_cases c3 : r < 0x10000
      · rw [if_neg c1, if_neg c2, if_pos c3, EncodeRune_3 r (by omega) (by omega) h2]; rfl
      · rw [if_neg c1, if_neg c2, if_neg c3, EncodeRune_4 r (by omega) h1]; rfl

/-! ## Shell driver pump: proofs -/

theorem ReadRune_valid (rest : Bytes) (rn size : Nat) (rest' : Bytes)
    (h : ReadRune rest = some (rn, size, rest')) (hr : rn ≠ utf8.RuneError) :
    ValidRune rn ∧ utf8.EncodeRune rn = rest.take size ∧ utf8.RuneLen rn = size ∧
      size = minimalLen rn ∧ 1 ≤ size ∧ size ≤ 4 ∧ rest' = rest.drop size := by
  cases rest with
  | nil => simp [ReadRune] at h
  | cons b t =>
    simp only [ReadRune, Option.some.injEq, Prod.mk.injEq] at h
    obtain ⟨h1, h2, h3⟩ := h
    by_cases hb : b ≥ 0x80
    · rw [if_pos hb] at h1 h2 h3
      have hd : utf8.DecodeRune (b :: t) = (rn, size) := by
        rw [← h1, ← h2]
      obtain ⟨a1, a2, a3, a4, a5, a6⟩ := DecodeRune_roundtrip (b :: t) rn size hd hr
      exact ⟨a1, a2, a3, a4, a5, a6, by rw [← h3, h2]⟩
    · rw [if_neg hb] at h1 h2 h3
      simp only at h1 h2 h3
      subst h1 h2
      refine ⟨⟨by omega, by omega⟩, ?_, ?_, ?_, by omega, by omega, h3.symm⟩
      · rw [EncodeRune_1 b (by omega)]; rfl
      · unfold utf8.RuneLen; rw [if_pos (by omega)]; rfl
      · unfold minimalLen; rw [if_pos (by omega)]

theorem ReadRune_suffix (rest : Bytes) (rn size : Nat) (rest' : Bytes)
    (h : ReadRune rest = some (rn, size, rest')) : rest = rest.take size ++ rest' := by
  cases rest with
  | nil => simp [ReadRune] at h
  | cons b t =>
    simp only [ReadRune, Option.some.injEq, Prod.mk.injEq] at h
    obtain ⟨-, h2, h3⟩ := h
    rw [← h3, h2, List.take_append_drop]

theorem doSsh_step_inv (ToInt : Bytes → Int) (stream : Bytes) (p : Pump) (e : PumpEvent)
    (hinv : PumpInv stream p) :
    PumpInv stream (doSsh.step ToInt p e).1 ∧ (doSsh.step ToInt p e).2 ≠ .panicked := by
  cases e with
  | waitChan => exact ⟨hinv, by simp [doSsh.step]⟩
  | awayChan => exact ⟨hinv, by simp [doSsh.step]⟩
  | windowChan s =>
    simp only [doSsh.step]
    cases doSsh.window ToInt s with
    | none => exact ⟨hinv, by simp⟩
    | some req => exact ⟨hinv, by simp⟩
  | default =>
    simp only [doSsh.step]
    cases hread : ReadRune p.rest with
    | none => exact ⟨hinv, by simp⟩
    | some x =>
      obtain ⟨rn, size, rest'⟩ := x
      obtain ⟨⟨consumed, hcons⟩, hch⟩ := hinv
      have hsuf := ReadRune_suffix p.rest rn size rest' hread
      have hcons' : ∃ consumed', stream = consumed' ++ rest' :=
        ⟨consumed ++ p.rest.take size, by rw [List.append_assoc, ← hsuf]; exact hcons⟩
      by_cases hskip : size ≤ 0 ∨ rn = utf8.RuneError
      · simp only [hskip, if_true]
        exact ⟨⟨hcons', hch⟩, by simp⟩
      · simp only [hskip, if_false]
        have hr : rn ≠ utf8.RuneError := fun hh => hskip (Or.inr hh)
        obtain ⟨a1, a2, a3, a4, a5, a6, -⟩ := ReadRune_valid p.rest rn size rest' hread hr
        have hlen : (utf8.EncodeRune rn).length = size := by
          rw [EncodeRune_length rn a1, ← a4]
        have hnp : ¬ (utf8.RuneLen rn < 0 ∨ utf8.RuneLen rn < ((utf8.EncodeRune rn).length : Int)) := by
          rw [a3, hlen]; omega
        simp only [hnp, if_false]
        refine ⟨⟨hcons', ?_⟩, by simp⟩
        intro c hc
        simp only [List.mem_append, List.mem_singleton] at hc
        rcases hc with hc | hc
        · exact hch c hc
        · have hpad : (utf8.RuneLen rn).toNat - (utf8.EncodeRune rn).length = 0 := by
            rw [a3, hlen]; simp
          rw [hpad, List.replicate_zero, List.append_nil] at hc
          subst hc
          refine ⟨⟨rn, a1, hr, rfl, by rw [hlen]; exact a4, by omega, by omega⟩, consumed, rest', ?_⟩
          rw [a2, List.append_assoc, ← hsuf]
          exact hcons

theorem doSsh_pump_inv (ToInt : Bytes → Int) (stream : Bytes) (sched : List PumpEvent) (p : Pump)
    (hinv : PumpInv stream p) :
    PumpInv stream (doSsh.pump ToInt p sched).1 ∧ (doSsh.pump ToInt p sched).2 ≠ .panicked := by
  induction sched generalizing p with
  | nil => exact ⟨hinv, by simp [doSsh.pump]⟩
  | cons e es ih =>
    have hs := doSsh_step_inv ToInt stream p e hinv
    unfold doSsh.pump
    rcases hstep : doSsh.step ToInt p e with ⟨p', o⟩
    rw [hstep] at hs
    cases o with
    | running => exact ih p' hs.1
    | exited => exact ⟨hs.1, by simp⟩
    | panicked => exact absurd rfl hs.2

theorem WholeRunes_nil : WholeRunes [] := ⟨[], by simp, rfl⟩

theorem WholeRunes_append (a c : Bytes) (ha : WholeRunes a) (hc : WholeRune c) :
    WholeRunes (a ++ c) := by
  obtain ⟨cs, h1, h2⟩ := ha
  refine ⟨cs ++ [c], ?_, by simp [h2]⟩
  intro x hx
  simp only [List.mem_append, List.mem_singleton] at hx
  rcases hx with hx | hx
  · exact h1 x hx
  · rw [hx]; exact hc

theorem sendMsg_whole (m : Mux) (h : MuxWhole m) : MuxWhole (sendMsg true m) := by
  by_cases hb : m.buf = []
  · rw [sendMsg_empty true m hb]; exact h
  · rw [sendMsg_nonempty m hb]
    refine ⟨WholeRunes_nil, ?_⟩
    intro fr hfr hfl
    simp only [List.mem_append, List.mem_singleton] at hfr
    rcases hfr with hfr | hfr
    · exact h.2 fr hfr hfl
    · rw [hfr]; exact h.1

theorem step_whole (isSssh : Bool) (m : Mux) (e : Event) (h : MuxWhole m)
    (he : ∀ b, e = .outChan b → WholeRune b) : MuxWhole (Connecting.step isSssh m e).1 := by
  cases e with
  | ctxDone => exact h
  | readWsErr => exact h
  | closeChan c =>
    cases isSssh
    · exact h
    · refine ⟨h.1, ?_⟩
      intro fr hfr hfl
      simp only [Connecting.step, if_true, List.mem_append, List.mem_singleton] at hfr
      rcases hfr with hfr | hfr
      · exact h.2 fr hfr hfl
      · rw [hfr] at hfl; simp at hfl
  | errChan => exact h
  | inChan f =>
    simp only [Connecting.step]
    cases hh : handleIn isSssh f m with
    | none => exact h
    | some m' =>
      obtain ⟨h1, h2⟩ := handleIn_frame isSssh f m m' hh
      simp only [MuxWhole, h1, h2]
      exact h
  | outChan out => exact ⟨WholeRunes_append m.buf out h.1 (he out rfl), h.2⟩
  | tk => exact sendMsg_whole m h
  | tk1s =>
    refine ⟨h.1, ?_⟩
    intro fr hfr hfl
    simp only [Connecting.step, List.mem_append, List.mem_singleton] at hfr
    rcases hfr with hfr | hfr
    · exact h.2 fr hfr hfl
    · rw [hfr] at hfl; simp at hfl

theorem loop_whole (isSssh : Bool) (evs : List Event) (m : Mux) (h : MuxWhole m)
    (he : ∀ b, Event.outChan b ∈ evs → WholeRune b) :
    MuxWhole (Connecting.loop isSssh m evs).1 := by
  induction evs generalizing m with
  | nil => exact h
  | cons e es ih =>
    have hs := step_whole isSssh m e h (fun b hb => he b (by rw [hb]; exact List.mem_cons_self _ _))
    unfold Connecting.loop
    rcases hstep : Connecting.step isSssh m e with ⟨m', o⟩
    rw [hstep] at hs
    cases o with
    | running => exact ih m' hs (fun b hb => he b (List.mem_cons_of_mem _ hb))
    | exited => exact hs
    | panicked => exact hs

/-- C3: every chunk the pump of `doSsh` sends on `out_chan` is the shortest
UTF-8 encoding (1 to 4 bytes) of one scalar value other than the replacement
rune, taken as it stands in the backend output, and the pump never panics;
hence every flush frame the multiplexer builds from these chunks is a
concatenation of whole runes. -/
theorem doSsh_chunks_whole_runes (ToInt : Bytes → Int) (stream : Bytes)
    (sched : List PumpEvent) :
    (doSsh.pump ToInt ⟨stream, [], []⟩ sched).2 ≠ .panicked ∧
    (∀ c ∈ (doSsh.pump ToInt ⟨stream, [], []⟩ sched).1.outChan,
      WholeRune c ∧ ∃ pre post, stream = pre ++ c ++ post) ∧
    (∀ isSssh evs,
      (∀ b, Event.outChan b ∈ evs → b ∈ (doSsh.pump ToInt ⟨stream, [], []⟩ sched).1.outChan) →
      (∀ fr ∈ (Connecting.loop isSssh Mux.init evs).1.ws,
        fr.origin = .flush → WholeRunes fr.payload) ∧
      (∀ fin, Connecting.run isSssh Mux.init evs = some fin →
        ∀ fr ∈ fin.ws, fr.origin = .flush → WholeRunes fr.payload)) := by
  have h0 : PumpInv stream ⟨stream, [], []⟩ :=
    ⟨⟨[], rfl⟩, fun c hc => by simp at hc⟩
  obtain ⟨hinv, hnp⟩ := doSsh_pump_inv ToInt stream sched ⟨stream, [], []⟩ h0
  refine ⟨hnp, hinv.2, ?_⟩
  intro isSssh evs hev
  have hm0 : MuxWhole Mux.init := ⟨WholeRunes_nil, fun fr hfr => by simp [Mux.init] at hfr⟩
  have hl := loop_whole isSssh evs Mux.init hm0 (fun b hb => (hinv.2 b (hev b hb)).1)
  refine ⟨hl.2, ?_⟩
  intro fin hfin
  unfold Connecting.run at hfin
  rcases hloop : Connecting.loop isSssh Mux.init evs with ⟨m', o⟩
  rw [hloop] at hfin hl
  cases o with
  | running => simp at hfin
  | exited =>
    simp only [Option.some.injEq] at hfin
    rw [← hfin]
    exact (sendMsg_whole m' hl).2
  | panicked =>
    simp only [Option.some.injEq] at hfin
    rw [← hfin]
    exact (sendMsg_whole m' hl).2

/-- The pump on the output `$`, `€`, a lead byte cut short, `A`, an encoded
U+FFFD and a face: the four whole runes are sent, nothing else. -/
theorem doSsh_pump_sample :
    doSsh.pump (fun _ => 0)
      ⟨[0x24, 0xE2, 0x82, 0xAC, 0xE2, 0x41, 0xEF, 0xBF, 0xBD, 0xF0, 0x9F, 0x98, 0x80], [], []⟩
      (List.replicate 8 .default) =
    (⟨[], [[0x24], [0xE2, 0x82, 0xAC], [0x41], [0xF0, 0x9F, 0x98, 0x80]], []⟩, .exited) := by
  decide

/-! ## Resize hints: proofs -/

/-- C5: the shell driver issues a window-change request for a resize hint
exactly when the hint has at least two comma-separated fields whose first two
read as integers `w > 0` and `h > 0`, and the request is `(rows = h, cols = w)`;
for every other hint the loop goes on without a request.  So "120,40,96" gives
`(rows = 40, cols = 120)` and "0,40" gives none. -/
theorem doSsh_window_spec (ToInt : Bytes → Int) (s : Bytes) (p : Pump) :
    (∀ req, doSsh.window ToInt s = some req ↔
      ∃ f0 f1 rest, strings.Split s 44 = f0 :: f1 :: rest ∧ 0 < ToInt f0 ∧ 0 < ToInt f1 ∧
        req = { rows := ToInt f1, cols := ToInt f0 }) ∧
    doSsh.step ToInt p (.windowChan s) =
      ({ p with winch := p.winch ++ (doSsh.window ToInt s).toList }, .running) ∧
    ((strings.Split s 44).length < 2 → doSsh.window ToInt s = none) ∧
    (∀ f0 f1 rest, strings.Split s 44 = f0 :: f1 :: rest → ToInt f0 ≤ 0 ∨ ToInt f1 ≤ 0 →
      doSsh.window ToInt s = none) ∧
    (ToInt (str "120") = 120 → ToInt (str "40") = 40 →
      doSsh.window ToInt (str "120,40,96") = some { rows := 40, cols := 120 }) ∧
    (ToInt (str "0") = 0 → doSsh.window ToInt (str "0,40") = none) := by
  refine ⟨?_, ?_, ?_, ?_, ?_, ?_⟩
  · intro req
    unfold doSsh.window
    rcases hsp : strings.Split s 44 with _ | ⟨f0, _ | ⟨f1, rest⟩⟩
    · simp
    · simp
    · simp only [List.length_cons, List.getD_cons_zero, List.getD_cons_succ]
      rw [if_neg (by omega)]
      by_cases hwh : ToInt f0 ≤ 0 ∨ ToInt f1 ≤ 0
      · rw [if_pos hwh]
        constructor
        · intro h; simp at h
        · rintro ⟨g0, g1, r, heq, h0, h1, -⟩
          simp only [List.cons.injEq] at heq
          obtain ⟨rfl, rfl, -⟩ := heq
          omega
      · rw [if_neg hwh]
        constructor
        · intro h
          simp only [Option.some.injEq] at h
          exact ⟨f0, f1, rest, rfl, by omega, by omega, h.symm⟩
        · rintro ⟨g0, g1, r, heq, -, -, hreq⟩
          simp only [List.cons.injEq] at heq
          obtain ⟨rfl, rfl, -⟩ := heq
          rw [hreq]
  · simp only [doSsh.step]
    cases doSsh.window ToInt s <;> simp
  · intro h
    unfold doSsh.window
    simp only [h, if_true]
  · intro f0 f1 rest hsp hwh
    unfold doSsh.window
    simp only [hsp, List.length_cons, List.getD_cons_zero, List.getD_cons_succ]
    rw [if_neg (by omega), if_pos hwh]
  · intro h1 h2
    have hsp : strings.Split (str "120,40,96") 44 = [str "120", str "40", str "96"] := by decide
    unfold doSsh.window
    simp only [hsp, List.length_cons, List.getD_cons_zero, List.getD_cons_succ, h1, h2]
    decide
  · intro h0
    have hsp : strings.Split (str "0,40") 44 = [str "0", str "40"] := by decide
    unfold doSsh.window
    simp only [hsp, List.length_cons, List.getD_cons_zero, List.getD_cons_succ, h0]
    simp

/-- The two resize hints of the scenario under a reader of the numerals they
hold: the first gives 40 rows and 120 columns, the second nothing. -/
theorem doSsh_window_sample :
    (doSsh.pump (fun s => if s = str "120" then 120 else if s = str "40" then 40 else 0)
      ⟨[], [], []⟩ [.windowChan (str "120,40,96"), .windowChan (str "0,40")]).1.winch =
    [{ rows := 40, cols := 120 }] := by
  decide

/-! ## Attach gate: proofs -/

theorem Load_set_self (reg : Registry) (k : Bytes) (v : RegVal) (h : reg.Load k ≠ none) :
    (reg.set k v).Load k = some v := by
  induction reg with
  | nil => simp [Registry.Load] at h
  | cons e rest ih =>
    obtain ⟨k', w⟩ := e
    unfold Registry.set
    by_cases hk : k' = k
    · subst hk
      simp [Registry.Load, List.lookup]
    · have hk' : (k' == k) = false := by simpa using hk
      have hk'' : (k == k') = false := by simpa using fun h' => hk h'.symm
      rw [hk']
      simp only [Registry.Load, List.lookup, hk'', Bool.false_eq_true, if_false] at h ⊢
      exact ih h

theorem Load_set_other (reg : Registry) (k y : Bytes) (v : RegVal) (h : y ≠ k) :
    (reg.set k v).Load y = reg.Load y := by
  induction reg with
  | nil => rfl
  | cons e rest ih =>
    obtain ⟨k', w⟩ := e
    unfold Registry.set
    by_cases hk : k' = k
    · subst hk
      have : (y == k') = false := by simpa using h
      simp [Registry.Load, List.lookup, this]
    · have hk' : (k' == k) = false := by simpa using hk
      rw [hk']
      simp only [Registry.Load, List.lookup, Bool.false_eq_true, if_false]
      cases hy : y == k'
      · exact ih
      · rfl

theorem gate_absent (reg : Registry) (x : Bytes) (h : reg.Load x = none) :
    Connecting.gate reg x = (reg, .error .ErrInvalidSessionId) := by
  simp [Connecting.gate, h]

theorem gate_connected (reg : Registry) (x : Bytes) (s : Session)
    (h : reg.Load x = some (.session s)) (hc : s.Connected = true) :
    Connecting.gate reg x = (reg, .error .ErrInvalidSessionId) := by
  simp [Connecting.gate, h, hc]

theorem gate_fresh (reg : Registry) (x : Bytes) (s : Session)
    (h : reg.Load x = some (.session s)) (hc : s.Connected = false) :
    Connecting.gate reg x =
      (reg.set x (.session { s with Connected := true }), .ok { s with Connected := true }) := by
  simp [Connecting.gate, h, hc, CompareAndSwap]

theorem gate_keeps_connected (reg : Registry) (x y : Bytes) (s : Session)
    (h : reg.Load x = some (.session s)) (hc : s.Connected = true) :
    (Connecting.gate reg y).1.Load x = some (.session s) := by
  by_cases hxy : y = x
  · subst hxy
    rw [gate_connected reg y s h hc]
    exact h
  · unfold Connecting.gate
    cases hy : reg.Load y with
    | none => exact h
    | some v =>
      cases v with
      | other => exact h
      | session t =>
        by_cases ht : t.Connected = true
        · simp only [ht, if_true]
          exact h
        · simp only [ht, Bool.false_eq_true, if_false]
          rw [Load_set_other reg y x _ (fun hh => hxy hh.symm)]
          exact h

theorem attachAll_keeps_connected (ids : List Bytes) (reg : Registry) (x : Bytes) (s : Session)
    (h : reg.Load x = some (.session s)) (hc : s.Connected = true) :
    (attachAll reg ids).1.Load x = some (.session s) := by
  induction ids generalizing reg with
  | nil => exact h
  | cons y ys ih =>
    unfold attachAll
    exact ih (Connecting.gate reg y).1 (gate_keeps_connected reg x y s h hc)

theorem attachAll_rejected (n : Nat) (reg : Registry) (x : Bytes) (s : Session)
    (h : reg.Load x = some (.session s)) (hc : s.Connected = true) :
    (attachAll reg (List.replicate n x)).2 = List.replicate n (some .ErrInvalidSessionId) := by
  induction n with
  | zero => rfl
  | succ n ih =>
    rw [List.replicate_succ]
    unfold attachAll
    rw [gate_connected reg x s h hc]
    simp only [ih, List.replicate_succ]

/-- C8: the attach of `Connecting` fails with `InvalidSessionId` when the id is
not in the registry, and fails with `InvalidSessionId`, leaving the registry
(so the session's flag and bundle) as it was, when the session under the id is
already connected; otherwise it sets `connected` to true and changes nothing
else.  Of attach attempts made one after the other on one session only the
first succeeds, and a `connected` that is true stays true. -/
theorem attach_gate_spec (reg : Registry) (x : Bytes) :
    (reg.Load x = none → Connecting.gate reg x = (reg, .error .ErrInvalidSessionId)) ∧
    (∀ s, reg.Load x = some (.session s) → s.Connected = true →
      Connecting.gate reg x = (reg, .error .ErrInvalidSessionId)) ∧
    (∀ s, reg.Load x = some (.session s) → s.Connected = false →
      ∃ reg', Connecting.gate reg x = (reg', .ok { s with Connected := true }) ∧
        reg'.Load x = some (.session { s with Connected := true }) ∧
        ∀ y, y ≠ x → reg'.Load y = reg.Load y) ∧
    (∀ s, reg.Load x = some (.session s) → s.Connected = false → ∀ n,
      (attachAll reg (List.replicate (n + 1) x)).2 =
        none :: List.replicate n (some .ErrInvalidSessionId)) ∧
    (∀ s, reg.Load x = some (.session s) → s.Connected = true → ∀ ids,
      (attachAll reg ids).1.Load x = some (.session s)) := by
  refine ⟨gate_absent reg x, gate_connected reg x, ?_, ?_, ?_⟩
  · intro s h hc
    refine ⟨_, gate_fresh reg x s h hc, ?_, ?_⟩
    · exact Load_set_self reg x _ (by rw [h]; simp)
    · intro y hy
      exact Load_set_other reg x y _ hy
  · intro s h hc n
    rw [List.replicate_succ]
    unfold attachAll
    rw [gate_fresh reg x s h hc]
    have h' : (reg.set x (.session { s with Connected := true })).Load x =
        some (.session { s with Connected := true }) :=
      Load_set_self reg x _ (by rw [h]; simp)
    simp only [attachAll_rejected n _ x _ h' rfl]
  · intro s h hc ids
    exact attachAll_keeps_connected ids reg x s h hc

/-! ## Concurrent attach -/

/-- C9, on the code: with the schedule a, b, a, b both tasks read `connected`
as false before either swaps it, the second `CompareAndSwap` fails without
effect on the task that made it, and both tasks end past the gate. -/
theorem concurrent_attach_both_enter :
    Race.run { connected := false, a := .start, b := .start } [true, false, true, false] =
      { connected := true, a := .entered, b := .entered } ∧
    CompareAndSwap true false true = (true, false) := by
  constructor <;> decide

/-! ## Choice of driver: proofs -/

theorem Split_ne_nil (s : Bytes) (sep : Nat) : strings.Split s sep ≠ [] := by
  induction s with
  | nil => simp [strings.Split]
  | cons c cs ih =>
    unfold strings.Split
    by_cases h : c = sep
    · simp [h]
    · simp only [h, if_false]
      cases hs : strings.Split cs sep with
      | nil => exact absurd hs ih
      | cons f fs => simp

theorem Split_head_prefix (s : Bytes) (sep : Nat) :
    ∃ rest, s = (strings.Split s sep).headD [] ++ rest := by
  induction s with
  | nil => exact ⟨[], by simp [strings.Split]⟩
  | cons c cs ih =>
    unfold strings.Split
    by_cases h : c = sep
    · exact ⟨c :: cs, by simp [h]⟩
    · simp only [h, if_false]
      obtain ⟨rest, hrest⟩ := ih
      cases hs : strings.Split cs sep with
      | nil => exact absurd hs (Split_ne_nil cs sep)
      | cons f fs =>
        rw [hs] at hrest
        simp only [List.headD_cons] at hrest ⊢
        exact ⟨rest, by rw [List.cons_append, ← hrest]⟩

/-- C10 as stated fails at the protocol "ssh2": its part before the first ':'
begins with "ssh", yet `Connect` launches no driver for it, while `Connecting`
applies shell framing to a session with that protocol. -/
theorem driver_choice_counterexample :
    ¬ (strings.HasPrefix ((strings.Split (str "ssh2") 58).headD []) (str "ssh") = true →
        Connect.driver (str "ssh2") = some .shell) ∧
    Connect.driver (str "ssh2") = none ∧
    ¬ (Connecting.isSssh (str "ssh2") = true ↔ Connect.driver (str "ssh2") = some .shell) := by
  decide

/-- C10, amended: `Connect` launches the shell driver when the part of the
protocol before the first ':' is exactly "ssh", the desktop driver when it is
"vnc" or "rdp", and no driver otherwise; whenever it launches a driver,
`Connecting` applies shell framing to a session of that protocol exactly when
the driver is the shell driver. -/
theorem driver_choice_spec (p : Bytes) :
    (Connect.driver p = some .shell ↔ (strings.Split p 58).headD [] = str "ssh") ∧
    (Connect.driver p = some .desktop ↔
      ((strings.Split p 58).headD [] = str "vnc" ∨ (strings.Split p 58).headD [] = str "rdp")) ∧
    (Connect.driver p = none ↔
      ((strings.Split p 58).headD [] ≠ str "ssh" ∧ (strings.Split p 58).headD [] ≠ str "vnc" ∧
        (strings.Split p 58).headD [] ≠ str "rdp")) ∧
    (∀ d, Connect.driver p = some d → (Connecting.isSssh p = true ↔ d = .shell)) := by
  have hssh : str "ssh" = [115, 115, 104] := by decide
  have hvnc : str "vnc" = [118, 110, 99] := by decide
  have hrdp : str "rdp" = [114, 100, 112] := by decide
  obtain ⟨rest, hp⟩ := Split_head_prefix p 58
  generalize hk : (strings.Split p 58).headD [] = k at hp
  have hdrv : Connect.driver p =
      if k = str "ssh" then some .shell
      else if k = str "vnc" ∨ k = str "rdp" then some .desktop else none := by
    unfold Connect.driver
    rw [hk]
  by_cases h1 : k = str "ssh"
  · have hd : Connect.driver p = some .shell := by rw [hdrv, if_pos h1]
    have hpre : Connecting.isSssh p = true := by
      rw [hp, h1, hssh]
      simp [Connecting.isSssh, hssh, strings.HasPrefix]
    refine ⟨by simp [hd, h1], ?_, by simp [hd, h1], ?_⟩
    · rw [hd, h1, hssh, hvnc, hrdp]; simp
    · intro d hdd
      rw [hd] at hdd
      simp only [Option.some.injEq] at hdd
      simp [hpre, ← hdd]
  · by_cases h2 : k = str "vnc" ∨ k = str "rdp"
    · have hd : Connect.driver p = some .desktop := by rw [hdrv, if_neg h1, if_pos h2]
      have hpre : Connecting.isSssh p = false := by
        rcases h2 with h2 | h2
        · rw [hp, h2, hvnc]
          simp [Connecting.isSssh, hssh, strings.HasPrefix]
        · rw [hp, h2, hrdp]
          simp [Connecting.isSssh, hssh, strings.HasPrefix]
      refine ⟨by simp [hd, h1], by simp [hd, h2], ?_, ?_⟩
      · rw [hd]
        simp only [reduceCtorEq, false_iff, not_and, not_not]
        intro _ hv
        rcases h2 with h2 | h2
        · exact absurd h2 hv
        · exact h2
      · intro d hdd
        rw [hd] at hdd
        simp only [Option.some.injEq] at hdd
        simp [hpre, ← hdd]
    · have hd : Connect.driver p = none := by rw [hdrv, if_neg h1, if_neg h2]
      push_neg at h2
      refine ⟨by simp [hd, h1], by simp [hd, h2.1, h2.2], by simp [hd, h1, h2.1, h2.2], ?_⟩
      intro d hdd
      rw [hd] at hdd
      simp at hdd

/-! ## Driver failures and the desktop session id -/

theorem doSsh_handshake_failure (b : SshBackend)
    (h : b.dial.isSome ∨ b.newSession.isSome ∨ b.requestPty.isSome ∨ b.shell.isSome ∨
      b.marshal.isSome ∨ b.winWrite.isSome ∨ b.readBytes.isSome ∨ b.unmarshal.1.isSome) :
    ∃ e, doSsh.handshake b = [.sendErr (some e)] ∧
      Connect.await (doSsh.handshake b) = .abort 500 .ErrConnectServer := by
  unfold doSsh.handshake
  simp only
  split_ifs with h1 h2 h3 h4 h5 h6 h7 h8
  · obtain ⟨e, he⟩ := Option.isSome_iff_exists.mp h1
    exact ⟨e, by rw [he], by rw [he]; rfl⟩
  · obtain ⟨e, he⟩ := Option.isSome_iff_exists.mp h2
    exact ⟨e, by rw [he], by rw [he]; rfl⟩
  · obtain ⟨e, he⟩ := Option.isSome_iff_exists.mp h3
    exact ⟨e, by rw [he], by rw [he]; rfl⟩
  · obtain ⟨e, he⟩ := Option.isSome_iff_exists.mp h4
    exact ⟨e, by rw [he], by rw [he]; rfl⟩
  · obtain ⟨e, he⟩ := Option.isSome_iff_exists.mp h5
    exact ⟨e, by rw [he], by rw [he]; rfl⟩
  · obtain ⟨e, he⟩ := Option.isSome_iff_exists.mp h6
    exact ⟨e, by rw [he], by rw [he]; rfl⟩
  · obtain ⟨e, he⟩ := Option.isSome_iff_exists.mp h7
    exact ⟨e, by rw [he], by rw [he]; rfl⟩
  · obtain ⟨e, he⟩ := Option.isSome_iff_exists.mp h8
    exact ⟨e, by rw [he], by rw [he]; rfl⟩
  · simp_all

theorem doGuacd_asset_failure (ctx : GinCtx) (b : GuacdBackend) (h : b.findAsset.1.isSome) :
    doGuacd ctx b = [.sendErr none] ∧ Connect.await (doGuacd ctx b) = .blocked := by
  have : doGuacd ctx b = [.sendErr none] := by
    unfold doGuacd
    simp [h]
  rw [this]
  exact ⟨rfl, rfl⟩

/-- C6, on the code: when the asset lookup of `doGuacd` fails (and likewise
the account lookup and the tunnel handshake), the one value the driver sends
on `err_chan` is nil, nothing is sent on `resp_chan`, and `Connect` is left
waiting on `resp_chan` instead of answering 500 with `ConnectServer`. -/
theorem doGuacd_failure_sends_nil :
    doGuacd createCtx { goodGuacd with findAsset := (some (str "record not found"), openAsset) } =
      [.sendErr none] ∧
    Connect.await (doGuacd createCtx
      { goodGuacd with findAsset := (some (str "record not found"), openAsset) }) = .blocked ∧
    doGuacd createCtx { goodGuacd with findAccount := (some (str "record not found"), openAsset) } =
      [.sendErr none] ∧
    doGuacd createCtx { goodGuacd with handshake := some (str "handshake refused") } =
      [.sendErr none] := by
  decide

/-- C7, on the code: on the context of a create request, which has no
`session_id` route parameter, the session `doGuacd` builds and hands to
`handleUpsertSession` for the tunnel `$u1` is of type WEB but has the empty
session id, while the reply it publishes has code 0 and the session id `$u1`. -/
theorem newGuacdSession_drops_uuid :
    (newGuacdSession createCtx (str "$u1") openAsset ⟨0, [], []⟩ ⟨0, [], 0⟩).SessionId = [] ∧
    (newGuacdSession createCtx (str "$u1") openAsset ⟨0, [], []⟩ ⟨0, [], 0⟩).SessionType =
      SESSIONTYPE_WEB ∧
    (doGuacd createCtx goodGuacd).head? =
      some (.upsert (newGuacdSession createCtx (str "$u1") openAsset ⟨0, [], []⟩ ⟨0, [], 0⟩)) ∧
    respSends (doGuacd createCtx goodGuacd) =
      [{ Code := 0, Message := [], SessionId := str "$u1", Uid := 5, UserName := str "ann" }] ∧
    Connect.await (doGuacd createCtx goodGuacd) = .handshaken (str "$u1") := by
  decide

/-! ## Time-of-day strings: proofs -/

theorem strLe_hhmm (h1 h2 : Fin 24) (m1 m2 : Fin 60) :
    strLe (hhmm h1 m1) (hhmm h2 m2) = true ↔ minuteOfDay h1 m1 ≤ minuteOfDay h2 m2 := by
  obtain ⟨a, ha⟩ := h1
  obtain ⟨b, hb⟩ := h2
  obtain ⟨c, hc⟩ := m1
  obtain ⟨d, hd⟩ := m2
  simp only [hhmm, minuteOfDay, strLe]
  split_ifs <;> simp <;> omega

theorem Split_hhmm_range (h1 h2 : Fin 24) (m1 m2 : Fin 60) :
    strings.Split (hhmm h1 m1 ++ [126] ++ hhmm h2 m2) 126 = [hhmm h1 m1, hhmm h2 m2] := by
  obtain ⟨a, ha⟩ := h1
  obtain ⟨b, hb⟩ := h2
  obtain ⟨c, hc⟩ := m1
  obtain ⟨d, hd⟩ := m2
  have e1 : ¬ 48 + a / 10 = 126 := by omega
  have e2 : ¬ 48 + a % 10 = 126 := by omega
  have e3 : ¬ 48 + c / 10 = 126 := by omega
  have e4 : ¬ 48 + c % 10 = 126 := by omega
  have e5 : ¬ 48 + b / 10 = 126 := by omega
  have e6 : ¬ 48 + b % 10 = 126 := by omega
  have e7 : ¬ 48 + d / 10 = 126 := by omega
  have e8 : ¬ 48 + d % 10 = 126 := by omega
  simp [hhmm, strings.Split, e1, e2, e3, e4, e5, e6, e7, e8]

/-- C14: on zero-padded `HH:MM` strings (hours 00..23, minutes 00..59) the
byte-wise order `checkTime` compares with is the order of the minutes of the
day; so on a well-formed range `lo~hi` the test `hm >= lo && hm <= hi` of
`checkTime` holds exactly when the time of day of `now` lies in `[lo, hi]`. -/
theorem hhmm_order_spec (h1 h2 : Fin 24) (m1 m2 : Fin 60) (now : Time) :
    (strLe (hhmm h1 m1) (hhmm h2 m2) = true ↔ minuteOfDay h1 m1 ≤ minuteOfDay h2 m2) ∧
    now.Format1504 = hhmm now.hour now.minute ∧
    (checkTimeEntry now.Format1504 false (hhmm h1 m1 ++ [126] ++ hhmm h2 m2) = true ↔
      (minuteOfDay h1 m1 ≤ minuteOfDay now.hour now.minute ∧
        minuteOfDay now.hour now.minute ≤ minuteOfDay h2 m2)) := by
  refine ⟨strLe_hhmm h1 h2 m1 m2, rfl, ?_⟩
  have hf : now.Format1504 = hhmm now.hour now.minute := rfl
  unfold checkTimeEntry
  rw [Split_hhmm_range, hf]
  simp only [List.length_cons, List.length_nil, List.getD_cons_zero, List.getD_cons_succ,
    Bool.false_or, Bool.and_eq_true, decide_eq_true_eq]
  rw [strLe_hhmm, strLe_hhmm]
  constructor
  · rintro ⟨⟨-, h⟩, h'⟩
    exact ⟨h, h'⟩
  · rintro ⟨h, h'⟩
    exact ⟨⟨by omega, h⟩, h'⟩

/-! ## Teardown and admin close: proofs -/

theorem Load_Delete_self (reg : Registry) (k : Bytes) : (reg.Delete k).Load k = none := by
  induction reg with
  | nil => rfl
  | cons e rest ih =>
    obtain ⟨k', w⟩ := e
    unfold Registry.Delete
    by_cases hk : k' = k
    · subst hk
      simpa [List.filter, Registry.Delete, Registry.Load] using ih
    · have hk' : (k' == k) = false := by simpa using hk
      have hk'' : (k == k') = false := by simpa using fun h' => hk h'.symm
      simp only [List.filter, hk', Bool.not_false, Registry.Load, List.lookup, hk'']
      exact ih

theorem Load_Delete_other (reg : Registry) (k y : Bytes) (h : y ≠ k) :
    (reg.Delete k).Load y = reg.Load y := by
  induction reg with
  | nil => rfl
  | cons e rest ih =>
    obtain ⟨k', w⟩ := e
    unfold Registry.Delete
    by_cases hk : k' = k
    · subst hk
      have hy : (y == k') = false := by simpa using h
      simp only [List.filter, beq_self_eq_true, Bool.not_true, Registry.Load, List.lookup, hy]
      exact ih
    · have hk' : (k' == k) = false := by simpa using hk
      simp only [List.filter, hk', Bool.not_false, Registry.Load, List.lookup]
      cases hy : y == k'
      · exact ih
      · rfl

theorem doOfflineOnlineSession_registry (reg : Registry) (sessionId closer : Bytes)
    (received : Bool) :
    (doOfflineOnlineSession reg sessionId closer received).registry = reg.Delete sessionId := by
  unfold doOfflineOnlineSession
  cases reg.Load sessionId with
  | none => rfl
  | some v =>
    cases v with
    | other => rfl
    | session s =>
      simp only
      cases hm : s.Monitors <;> rfl

theorem ConnectClose_await_handshake (b : SshBackend) :
    ∃ reply, ConnectClose.await (doSsh.handshake b) = some reply ∧
      (reply = { status := 500, code := some .ErrConnectServer } ∨
       reply = { status := 400, code := some .ErrBadRequest } ∨
       reply = { status := 200, code := none }) := by
  by_cases h : b.dial.isSome ∨ b.newSession.isSome ∨ b.requestPty.isSome ∨ b.shell.isSome ∨
      b.marshal.isSome ∨ b.winWrite.isSome ∨ b.readBytes.isSome ∨ b.unmarshal.1.isSome
  · obtain ⟨e, he, -⟩ := doSsh_handshake_failure b h
    rw [he]
    exact ⟨_, rfl, Or.inl rfl⟩
  · have hs : doSsh.handshake b = [.sendErr none, .sendResp b.unmarshal.2, .startPump] := by
      unfold doSsh.handshake
      simp only [not_or, Bool.not_eq_true] at h
      obtain ⟨h1, h2, h3, h4, h5, h6, h7, h8⟩ := h
      simp [h1, h2, h3, h4, h5, h6, h7, h8]
    rw [hs]
    by_cases hc : b.unmarshal.2.Code ≠ 0
    · exact ⟨_, by simp [ConnectClose.await, errSends, respSends, hc], Or.inr (Or.inl rfl)⟩
    · exact ⟨_, by simp [ConnectClose.await, errSends, respSends, hc], Or.inr (Or.inr rfl)⟩

/-- C11: an admin close of a session with an ONLINE record in the store
returns, whatever the CLOSE handshake gives (driver error: 500, reply with a
non-zero code: 400, success: 200), with no registry entry under the session's
id and every entry under another id as it was; this for every registry
beforehand (the id in it or not, its bundle present or not) and whether or not
a multiplexer receives on `close_chan`. -/
theorem ConnectClose_removes_entry (reg : Registry) (userName : Bytes) (session : Session)
    (b : SshBackend) (received : Bool) :
    ∃ reg' reply t,
      ConnectClose reg true userName (.found session) b received = some (reg', reply, some t) ∧
      (reply = { status := 500, code := some .ErrConnectServer } ∨
       reply = { status := 400, code := some .ErrBadRequest } ∨
       reply = { status := 200, code := none }) ∧
      reg'.Load session.SessionId = none ∧
      ∀ y, y ≠ session.SessionId → reg'.Load y = reg.Load y := by
  obtain ⟨reply, hr, hcases⟩ := ConnectClose_await_handshake b
  refine ⟨reg.Delete session.SessionId, reply,
    doOfflineOnlineSession reg session.SessionId userName received, ?_, hcases,
    Load_Delete_self reg session.SessionId, fun y hy => Load_Delete_other reg session.SessionId y hy⟩
  simp only [ConnectClose, Bool.not_true, Bool.false_eq_true, if_false, hr,
    doOfflineOnlineSession_registry]

/-! ## Start-up: proofs -/

theorem Load_append_single (reg : Registry) (k y : Bytes) (v : RegVal) :
    (reg ++ [(k, v)]).Load y =
      match reg.Load y with
      | some w => some w
      | none => if y = k then some v else none := by
  induction reg with
  | nil =>
    by_cases hy : y = k
    · subst hy; simp [Registry.Load, List.lookup]
    · have : (y == k) = false := by simpa using hy
      simp [Registry.Load, List.lookup, this, hy]
  | cons e rest ih =>
    obtain ⟨k', w⟩ := e
    simp only [Registry.Load, List.cons_append, List.lookup] at ih ⊢
    cases hyk : y == k'
    · exact ih
    · rfl

theorem LoadOrStore_fresh (reg : Registry) (k : Bytes) (v : RegVal) (h : reg.Load k = none) :
    (reg.LoadOrStore k v).1 = reg ++ [(k, v)] := by
  simp [Registry.LoadOrStore, h]

theorem Init_loop_spec (ss : List Session) (reg : Registry)
    (hnd : (ss.map (fun s => s.SessionId)).Nodup)
    (hfresh : ∀ s ∈ ss, reg.Load s.SessionId = none) :
    (Init.loop reg ss).2 = .exited ∧
    (∀ s ∈ ss, s.SessionType = SESSIONTYPE_WEB → (Init.loop reg ss).1.Load s.SessionId = none) ∧
    (∀ s ∈ ss, s.SessionType ≠ SESSIONTYPE_WEB →
      (Init.loop reg ss).1.Load s.SessionId = some (.session { s with Monitors := some [] })) ∧
    (∀ k, (∀ s ∈ ss, s.SessionId ≠ k) → (Init.loop reg ss).1.Load k = reg.Load k) := by
  induction ss generalizing reg with
  | nil => exact ⟨rfl, by simp, by simp, fun k _ => rfl⟩
  | cons s rest ih =>
    simp only [List.map_cons, List.nodup_cons, List.mem_map, not_exists, not_and] at hnd
    obtain ⟨hs, hnd'⟩ := hnd
    have hsf : reg.Load s.SessionId = none := hfresh s (List.mem_cons_self _ _)
    by_cases hw : s.SessionType = SESSIONTYPE_WEB
    · have hstep : Init.loop reg (s :: rest) = Init.loop (reg.Delete s.SessionId) rest := by
        rw [Init.loop, if_pos hw]
        simp [doOfflineOnlineSession, hsf]
      have hload : ∀ y, (reg.Delete s.SessionId).Load y = reg.Load y := by
        intro y
        by_cases hy : y = s.SessionId
        · rw [hy, Load_Delete_self, hsf]
        · exact Load_Delete_other reg s.SessionId y hy
      have hfresh' : ∀ t ∈ rest, (reg.Delete s.SessionId).Load t.SessionId = none := by
        intro t ht
        rw [hload]
        exact hfresh t (List.mem_cons_of_mem _ ht)
      obtain ⟨i1, i2, i3, i4⟩ := ih (reg.Delete s.SessionId) hnd' hfresh'
      rw [hstep]
      refine ⟨i1, ?_, ?_, ?_⟩
      · intro t ht htw
        rcases List.mem_cons.mp ht with rfl | ht
        · rw [i4 t.SessionId (fun u hu he => hs u hu he), hload]
          exact hsf
        · exact i2 t ht htw
      · intro t ht htw
        rcases List.mem_cons.mp ht with rfl | ht
        · exact absurd hw htw
        · exact i3 t ht htw
      · intro k hk
        rw [i4 k (fun u hu => hk u (List.mem_cons_of_mem _ hu)), hload]
    · have hstep : Init.loop reg (s :: rest) =
          Init.loop (reg ++ [(s.SessionId, .session { s with Monitors := some [] })]) rest := by
        rw [Init.loop, if_neg hw, LoadOrStore_fresh reg _ _ hsf]
      have hfresh' : ∀ t ∈ rest,
          (reg ++ [(s.SessionId, RegVal.session { s with Monitors := some [] })]).Load
            t.SessionId = none := by
        intro t ht
        rw [Load_append_single, hfresh t (List.mem_cons_of_mem _ ht)]
        simp only
        rw [if_neg (hs t ht)]
      obtain ⟨i1, i2, i3, i4⟩ := ih _ hnd' hfresh'
      rw [hstep]
      refine ⟨i1, ?_, ?_, ?_⟩
      · intro t ht htw
        rcases List.mem_cons.mp ht with rfl | ht
        · exact absurd htw hw
        · exact i2 t ht htw
      · intro t ht htw
        rcases List.mem_cons.mp ht with rfl | ht
        · rw [i4 t.SessionId (fun u hu he => hs u hu he), Load_append_single, hsf]
          simp
        · exact i3 t ht htw
      · intro k hk
        rw [i4 k (fun u hu => hk u (List.mem_cons_of_mem _ hu)), Load_append_single]
        have hne : k ≠ s.SessionId := fun he => hk s (List.mem_cons_self _ _) he.symm
        cases reg.Load k with
        | none => simp [hne]
        | some w => rfl

/-- C12, on the code: on a store holding one ONLINE record of type WEB and an
empty registry, `Init` hands the record to `doOfflineOnlineSession`, which
finds no registry entry and changes nothing; when `Init` returns the registry
is empty and the record is still ONLINE in the store, not OFFLINE. -/
theorem Init_leaves_web_online :
    webRecord.SessionType = SESSIONTYPE_WEB ∧
    webRecord.Status = SESSIONSTATUS_ONLINE ∧
    doOfflineOnlineSession [] webRecord.SessionId [] false =
      { registry := [], closeChan := [], notified := [], outcome := .exited } ∧
    Init { store := [webRecord], registry := [] } none =
      ({ store := [webRecord], registry := [] }, .exited) ∧
    ¬ (∀ s ∈ (Init { store := [webRecord], registry := [] } none).1.store,
        s.SessionType = SESSIONTYPE_WEB → s.Status = SESSIONSTATUS_OFFLINE) := by
  decide

/-- The registry `Init` builds: for persisted ONLINE records with pairwise
distinct session ids, `Init` on an empty registry runs to its end; no record
of type WEB has a registry entry, every record not of type WEB is in the
registry under its session id, as stored and with an empty monitors map, and
the registry holds no other entry. -/
theorem Init_rehydrates (store : List Session)
    (hnd : ((store.filter (fun s => s.Status = SESSIONSTATUS_ONLINE)).map
      (fun s => s.SessionId)).Nodup) :
    (Init { store := store, registry := [] } none).2 = .exited ∧
    (∀ s ∈ store, s.Status = SESSIONSTATUS_ONLINE → s.SessionType = SESSIONTYPE_WEB →
      (Init { store := store, registry := [] } none).1.registry.Load s.SessionId = none) ∧
    (∀ s ∈ store, s.Status = SESSIONSTATUS_ONLINE → s.SessionType ≠ SESSIONTYPE_WEB →
      (Init { store := store, registry := [] } none).1.registry.Load s.SessionId =
        some (.session { s with Monitors := some [] })) ∧
    (∀ k v, (Init { store := store, registry := [] } none).1.registry.Load k = some v →
      ∃ s ∈ store, s.Status = SESSIONSTATUS_ONLINE ∧ s.SessionType ≠ SESSIONTYPE_WEB ∧
        s.SessionId = k ∧ v = .session { s with Monitors := some [] }) := by
  have hmem : ∀ s, s ∈ store.filter (fun s => s.Status = SESSIONSTATUS_ONLINE) ↔
      s ∈ store ∧ s.Status = SESSIONSTATUS_ONLINE := by
    intro s
    simp [List.mem_filter]
  obtain ⟨i1, i2, i3, i4⟩ := Init_loop_spec
    (store.filter (fun s => s.Status = SESSIONSTATUS_ONLINE)) [] hnd (fun _ _ => rfl)
  have hinit : Init { store := store, registry := [] } none =
      ({ store := store,
         registry := (Init.loop [] (store.filter (fun s => s.Status = SESSIONSTATUS_ONLINE))).1 },
       (Init.loop [] (store.filter (fun s => s.Status = SESSIONSTATUS_ONLINE))).2) := by
    simp [Init]
  rw [hinit]
  refine ⟨i1, ?_, ?_, ?_⟩
  · intro s hs hon hw
    exact i2 s ((hmem s).mpr ⟨hs, hon⟩) hw
  · intro s hs hon hw
    exact i3 s ((hmem s).mpr ⟨hs, hon⟩) hw
  · intro k v hk
    simp only at hk
    by_cases hex : ∃ s ∈ store.filter (fun s => s.Status = SESSIONSTATUS_ONLINE), s.SessionId = k
    · obtain ⟨s, hs, rfl⟩ := hex
      by_cases hw : s.SessionType = SESSIONTYPE_WEB
      · rw [i2 s hs hw] at hk
        exact absurd hk (by simp)
      · rw [i3 s hs hw] at hk
        simp only [Option.some.injEq] at hk
        exact ⟨s, ((hmem s).mp hs).1, ((hmem s).mp hs).2, hw, rfl, hk.symm⟩
    · push_neg at hex
      rw [i4 k hex] at hk
      exact absurd hk (by simp [Registry.Load])

/-- The registry `Init` builds on a store with one WEB and one CLIENT record:
only the CLIENT record is in it, with an empty monitors map. -/
theorem Init_rehydrates_witness :
    (Init { store := [webRecord, clientRecord], registry := [] } none).1.registry =
      [(str "c1", .session { clientRecord with Monitors := some [] })] ∧
    (Init { store := [webRecord, clientRecord], registry := [] } none).1.registry.Load
      (str "w1") = none :=
  ⟨by decide,
   (Init_rehydrates [webRecord, clientRecord] (by decide)).2.1 webRecord
     (by decide) (by decide) (by decide)⟩

/-! ## Error frames of the WebSocket endpoints -/

theorem Connecting_errFrames (reg : Registry) (x : Bytes) (code : ErrCode) (r : Registry)
    (h : Connecting.gate reg x = (r, .error code)) : Connecting.errFrames reg x = [code] := by
  simp [Connecting.errFrames, h, wsErrorFrames]

theorem ConnectMonitor_handshake_failure (reg : Registry) (x : Bytes) (session rec : Session)
    (b : SshBackend) (hl : reg.Load x = some (.session session))
    (ht : session.SessionType = SESSIONTYPE_CLIENT) (hm : session.Monitors = some [])
    (hb : b.dial.isSome ∨ b.newSession.isSome ∨ b.requestPty.isSome ∨ b.shell.isSome ∨
      b.marshal.isSome ∨ b.winWrite.isSome ∨ b.readBytes.isSome ∨ b.unmarshal.1.isSome) :
    ConnectMonitor reg true x (.found rec) b =
      some { frames := [.ErrConnectServer], aborts := [(400, .ErrConnectServer)],
             registry := reg, outcome := .exited } := by
  obtain ⟨e, he, -⟩ := doSsh_handshake_failure b hb
  simp [ConnectMonitor, hl, ht, hm, he, Connect.await, errSends, ConnectMonitor.exit,
    wsErrorFrames]

/-- C13, on the code: `ConnectMonitor` writes no text frame to the WebSocket
when the caller is not an admin, when the store has no ONLINE record, and when
the session is missing from the registry: these paths abort the request with
the typed error but leave the `err` the deferred writer reads nil or holding
the store's error. -/
theorem ConnectMonitor_rejects_without_frame :
    ConnectMonitor [] false (str "c1") (.found clientRecord) goodSsh =
      some { frames := [], aborts := [(400, .ErrNoPerm)], registry := [], outcome := .exited } ∧
    ConnectMonitor [] true (str "c1") .notFound goodSsh =
      some { frames := [], aborts := [(400, .ErrInvalidSessionId)], registry := [],
             outcome := .exited } ∧
    ConnectMonitor [] true (str "c1") (.found clientRecord) goodSsh =
      some { frames := [], aborts := [(400, .ErrInvalidSessionId)], registry := [],
             outcome := .exited } := by
  decide

/-! ## Desktop driver: teardown and the pump -/

/-- C15, on the code: after a successful handshake the task running `doGuacd`
starts the pump as a goroutine and returns at once, so its deferred calls set
the session OFFLINE and send the terminal value on `err_chan` while the pump
is running; the pump forwards an instruction to `out_chan` afterwards. -/
theorem doGuacd_offline_while_pumping :
    (GuacdRun.run createCtx goodGuacd [.driver, .driver, .driver, .driver, .driver]).offline =
      true ∧
    (GuacdRun.run createCtx goodGuacd [.driver, .driver, .driver, .driver, .driver]).pump =
      .running ∧
    GuacdRun.run createCtx goodGuacd
        [.driver, .driver, .driver, .driver, .driver, .driver, .read (str "4.sync;")] =
      { todo := [], pump := .running, offline := true, errChan := [none, none],
        respChan := [{ Code := 0, Message := [], SessionId := str "$u1", Uid := 5,
                       UserName := str "ann" }],
        outChan := [str "4.sync;"] } := by
  decide

end Oneterm
